import Mathlib

/-!
# CVFS: a shallow embedding of `CVFS.cpp`

The three process-wide tables of the program (`UFDTArr`, `SUPERBLOCKobj`, the
inode list starting at `head`) are gathered in one record `VFS`, and every
function of the engine becomes a function from a `VFS` to a result and a new
`VFS`.

Conventions of the embedding.

* C `int` values are `Int`. The sums that `WriteFile` and `LseekFile` form
  with an argument of the caller are taken with `addInt`, which wraps around at
  32 bits as the compiled code does.
* A pointer to an inode is the position of that inode in the list `head`
  (the list is built once by `CreateDILB` and never relinked).
* A pointer that may be `NULL` is an `Option`.
* A `char` is a `Nat`; the byte `0` is the string terminator.
* A block returned by `malloc` is an argument of the function that asks for
  it: `none` when `malloc` returns `NULL`, `some b` when it returns a block
  whose (indeterminate) contents are `b`.
* `free` changes no field of the tables, so it does not appear.
* A function whose C text can dereference `NULL`, index outside `UFDTArr`, or
  run a string copy outside the object it was given (a data buffer, or the 50
  bytes of `FileName`) returns an `Option`; `none` stands for that undefined
  behaviour.
-/

namespace CVFS

abbrev MAXINODE : Nat := 50
abbrev READ : Int := 1
abbrev WRITE : Int := 2
abbrev MAXFILESIZE : Int := 2048
abbrev REGULAR : Int := 1
abbrev SPECIAL : Int := 2
abbrev START : Int := 0
abbrev CURRENT : Int := 1
abbrev END : Int := 2

/-- The sum of two `int` values as the machine forms it: the sum reduced to 32
bits, two's complement. On an operand that is not an `int` value, which no call
can pass and no field can hold, it is the plain sum. -/
def addInt (a b : Int) : Int :=
  if -2147483648 ≤ a ∧ a ≤ 2147483647 ∧ -2147483648 ≤ b ∧ b ≤ 2147483647 then
    (a + b + 2147483648) % 4294967296 - 2147483648
  else a + b

/-- The `struct superblock`. -/
structure SUPERBLOCK where
  TotalInodes : Int
  FreeInodes : Int
deriving DecidableEq, Repr

/-- The `struct inode`, without its `next` link (the list order carries it).
`FileName` is the string held in the array `char FileName[50]`. -/
structure INODE where
  FileName : String
  InodeNumber : Int
  FileSize : Int
  FileActualSize : Int
  FileType : Int
  Buffer : Option (List Nat)
  LinkCount : Int
  ReferenceCount : Int
  Permission : Int
deriving DecidableEq, Repr

/-- The `struct filetable`; `ptrinode` is a position in the inode list. -/
structure FILETABLE where
  readoffset : Int
  writeoffset : Int
  count : Int
  mode : Int
  ptrinode : Nat
deriving DecidableEq, Repr

/-- The global variables `UFDTArr`, `SUPERBLOCKobj` and `head`. -/
structure VFS where
  UFDTArr : List (Option FILETABLE)
  SUPERBLOCKobj : SUPERBLOCK
  head : List INODE
deriving DecidableEq, Repr

/-- The bytes that `strncpy(dest, src, n)` stores at `dest`: the characters of
`src` up to its terminator, then zeros, `n` bytes in all. The list `src` is the
object the source pointer points into; running off its end before `n` bytes or
a terminator were met is `none`. -/
def strncpy : List Nat → Nat → Option (List Nat)
  | _, 0 => some []
  | [], _ + 1 => none
  | 0 :: _, n + 1 => some (List.replicate (n + 1) 0)
  | (b + 1) :: rest, n + 1 => (strncpy rest n).map (fun out => (b + 1) :: out)

/-- The object `dest` after `n` bytes `chunk` were stored from position `off`
on; `none` when the bytes do not fit in it. -/
def store (dest : List Nat) (off : Nat) (chunk : List Nat) : Option (List Nat) :=
  if off + chunk.length ≤ dest.length then
    some (dest.take off ++ chunk ++ dest.drop (off + chunk.length))
  else none

/-- The function `Get_Inode`: the first inode of the list whose name is `name`, whatever its
type; `none` is `NULL`. -/
def Get_Inode (s : VFS) (name : Option String) : Option Nat :=
  match name with
  | none => none
  | some nm => s.head.findIdx? (fun ino => ino.FileName == nm)

/-- The function `CreateFile`. `ftBlock` and `bufBlock` are the answers of the two `malloc`
calls. The `strcpy` of the name into `FileName[50]` is not checked by the code:
with a name of 50 bytes or more (terminator not counted) it writes past the
array, and the result is `none`. -/
def CreateFile (s : VFS) (name : Option String) (permission : Int)
    (ftBlock : Option FILETABLE) (bufBlock : Option (List Nat)) : Option (Int × VFS) :=
  match name with
  | none => some (-1, s)
  | some nm =>
    if permission = 0 ∨ permission > 3 then some (-1, s)
    else if s.SUPERBLOCKobj.FreeInodes = 0 then some (-2, s)
    else
      let s1 : VFS :=
        { s with SUPERBLOCKobj :=
            { s.SUPERBLOCKobj with FreeInodes := s.SUPERBLOCKobj.FreeInodes - 1 } }
      if (Get_Inode s1 (some nm)).isSome then some (-3, s1)
      else
        match s1.head.findIdx? (fun ino => ino.FileType == 0) with
        | none => some (-4, s1)
        | some t =>
          match s1.head[t]? with
          | none => some (-4, s1)
          | some temp =>
            match s1.UFDTArr.findIdx? (fun e => e.isNone) with
            | none => some (-5, s1)
            | some i =>
              match ftBlock with
              | none => some (-6, s1)
              | some _ =>
                if 50 ≤ nm.utf8ByteSize then none
                else
                  let ft : FILETABLE :=
                    { count := 1, mode := permission, readoffset := 0, writeoffset := 0,
                      ptrinode := t }
                  let ino : INODE :=
                    { temp with
                      FileName := nm, FileType := REGULAR, ReferenceCount := 1, LinkCount := 1,
                      FileSize := MAXFILESIZE, FileActualSize := 0, Permission := permission,
                      Buffer := bufBlock }
                  let s2 : VFS :=
                    { s1 with UFDTArr := s1.UFDTArr.set i (some ft), head := s1.head.set t ino }
                  match bufBlock with
                  | none => some (-7, s2)
                  | some _ => some ((i : Int), s2)

/-- The function `ReadFile`. The second component of the result is what the call stored in
`arr` (nothing when it fails). -/
def ReadFile (s : VFS) (fd : Nat) (isize : Int) : Option (Int × List Nat × VFS) :=
  match s.UFDTArr[fd]? with
  | none => none
  | some none => some (-1, [], s)
  | some (some ft) =>
    if ft.mode ≠ READ ∧ ft.mode ≠ READ + WRITE then some (-1, [], s)
    else
      match s.head[ft.ptrinode]? with
      | none => none
      | some ino =>
        if ino.Permission ≠ READ ∧ ino.Permission ≠ READ + WRITE then some (-2, [], s)
        else if ft.readoffset = ino.FileActualSize then some (-3, [], s)
        else if ino.FileType ≠ REGULAR then some (-4, [], s)
        else
          let read_size := ino.FileActualSize - ft.readoffset
          let n := if read_size < isize then read_size else isize
          match ino.Buffer with
          | none => none
          | some buf =>
            if ft.readoffset < 0 ∨ n < 0 then none
            else
              match strncpy (buf.drop ft.readoffset.toNat) n.toNat with
              | none => none
              | some out =>
                some (n, out,
                  { s with UFDTArr :=
                      s.UFDTArr.set fd (some { ft with readoffset := ft.readoffset + n }) })

/-- The function `WriteFile`. `arr` is the object the caller passes, `isize` the count. -/
def WriteFile (s : VFS) (fd : Nat) (arr : List Nat) (isize : Int) : Option (Int × VFS) :=
  match s.UFDTArr[fd]? with
  | none => none
  | some none => none
  | some (some ft) =>
    if ft.mode ≠ WRITE ∧ ft.mode ≠ READ + WRITE then some (-1, s)
    else
      match s.head[ft.ptrinode]? with
      | none => none
      | some ino =>
        if ino.Permission ≠ WRITE ∧ ino.Permission ≠ READ + WRITE then some (-1, s)
        else if ft.writeoffset = MAXFILESIZE then some (-2, s)
        else if ino.FileType ≠ REGULAR then some (-3, s)
        else
          let n := if addInt ft.writeoffset isize > MAXFILESIZE then
                     MAXFILESIZE - ft.writeoffset
                   else isize
          match ino.Buffer with
          | none => none
          | some buf =>
            if ft.writeoffset < 0 ∨ n < 0 then none
            else
              match strncpy arr n.toNat with
              | none => none
              | some chunk =>
                match store buf ft.writeoffset.toNat chunk with
                | none => none
                | some buf1 =>
                  some (n,
                    { s with
                      UFDTArr :=
                        s.UFDTArr.set fd (some { ft with writeoffset := addInt ft.writeoffset n })
                      head :=
                        s.head.set ft.ptrinode
                          { ino with
                            Buffer := some buf1
                            FileActualSize := addInt ino.FileActualSize n } })

/-- The function `OpenFile`. `ftBlock` is the answer of `malloc`; the offsets the code does
not assign keep the contents of the block. -/
def OpenFile (s : VFS) (name : Option String) (mode : Int) (ftBlock : Option FILETABLE) :
    Int × VFS :=
  match name with
  | none => (-1, s)
  | some nm =>
    if mode ≤ 0 then (-1, s)
    else
      match Get_Inode s (some nm) with
      | none => (-2, s)
      | some t =>
        match s.head[t]? with
        | none => (-2, s)
        | some temp =>
          if Int.land temp.Permission mode ≠ mode then (-3, s)
          else
            match s.UFDTArr.findIdx? (fun e => e.isNone) with
            | none => (-4, s)
            | some i =>
              match ftBlock with
              | none => (-5, s)
              | some blk =>
                let ft0 : FILETABLE := { blk with count := 1, mode := mode }
                let ft1 : FILETABLE :=
                  if mode = READ + WRITE then { ft0 with readoffset := 0, writeoffset := 0 }
                  else if mode = READ then { ft0 with readoffset := 0 }
                  else if mode = WRITE then { ft0 with writeoffset := 0 }
                  else ft0
                let ft2 : FILETABLE := { ft1 with ptrinode := t }
                ((i : Int),
                  { s with
                    UFDTArr := s.UFDTArr.set i (some ft2)
                    head :=
                      s.head.set t { temp with ReferenceCount := temp.ReferenceCount + 1 } })

/-- The function `CloseFileByName(int fd)`: the slot is cleared only when the
reference count of the inode has come down to 0. -/
def CloseFileByName (s : VFS) (fd : Nat) : Option VFS :=
  match s.UFDTArr[fd]? with
  | none => none
  | some none => some s
  | some (some ft) =>
    match s.head[ft.ptrinode]? with
    | none => none
    | some ino =>
      let ft1 : FILETABLE := { ft with readoffset := 0, writeoffset := 0 }
      let ino1 : INODE := { ino with ReferenceCount := ino.ReferenceCount - 1 }
      if ino1.ReferenceCount = 0 then
        some { s with UFDTArr := s.UFDTArr.set fd none, head := s.head.set ft.ptrinode ino1 }
      else
        some { s with
               UFDTArr := s.UFDTArr.set fd (some ft1), head := s.head.set ft.ptrinode ino1 }

/-- The function `LseekFile`; `from_` is its parameter `from`. -/
def LseekFile (s : VFS) (fd : Int) (size : Int) (from_ : Int) : Option (Int × VFS) :=
  if fd < 0 ∨ from_ > 2 then some (-1, s)
  else
    match s.UFDTArr[fd.toNat]? with
    | none => none
    | some none => some (-1, s)
    | some (some ft) =>
      match s.head[ft.ptrinode]? with
      | none => none
      | some ino =>
        let setFT (ft1 : FILETABLE) : VFS :=
          { s with UFDTArr := s.UFDTArr.set fd.toNat (some ft1) }
        if ft.mode = READ ∨ ft.mode = READ + WRITE then
          if from_ = CURRENT then
            if addInt ft.readoffset size > ino.FileActualSize then some (-1, s)
            else if addInt ft.readoffset size < 0 then some (-1, s)
            else some (0, setFT { ft with readoffset := addInt ft.readoffset size })
          else if from_ = START then
            if size > ino.FileActualSize then some (-1, s)
            else if size < 0 then some (-1, s)
            else some (0, setFT { ft with readoffset := size })
          else if from_ = END then
            if addInt ino.FileActualSize size > MAXFILESIZE then some (-1, s)
            else if addInt ft.readoffset size < 0 then some (-1, s)
            else some (0, setFT { ft with readoffset := addInt ino.FileActualSize size })
          else some (0, s)
        else if ft.mode = WRITE then
          if from_ = CURRENT then
            if addInt ft.writeoffset size > MAXFILESIZE then some (-1, s)
            else if addInt ft.writeoffset size < 0 then some (-1, s)
            else
              let ino1 : INODE :=
                if addInt ft.writeoffset size > ino.FileActualSize then
                  { ino with FileActualSize := addInt ft.writeoffset size }
                else ino
              some (0,
                { s with
                  UFDTArr :=
                    s.UFDTArr.set fd.toNat
                      (some { ft with writeoffset := addInt ft.writeoffset size })
                  head := s.head.set ft.ptrinode ino1 })
          else if from_ = START then
            if size > MAXFILESIZE then some (-1, s)
            else if size < 0 then some (-1, s)
            else
              let ino1 : INODE :=
                if size > ino.FileActualSize then { ino with FileActualSize := size } else ino
              some (0,
                { s with
                  UFDTArr := s.UFDTArr.set fd.toNat (some { ft with writeoffset := size })
                  head := s.head.set ft.ptrinode ino1 })
          else if from_ = END then
            if addInt ino.FileActualSize size > MAXFILESIZE then some (-1, s)
            else if addInt ft.writeoffset size < 0 then some (-1, s)
            else some (0, setFT { ft with writeoffset := addInt ino.FileActualSize size })
          else some (0, s)
        else some (0, s)

/-- The loop of `CreateDILB`, run from `head == NULL`: `blocks i` is the answer
of the `malloc` call for inode number `i`; the fields the code does not assign
(`FileName`, `FileActualSize`, `Permission`) keep the contents of the block. -/
def CreateDILB.loop (blocks : Nat → Option INODE) : Nat → Nat → List INODE → List INODE
  | 0, _, acc => acc
  | fuel + 1, i, acc =>
    match blocks i with
    | none => acc
    | some b =>
      CreateDILB.loop blocks fuel (i + 1)
        (acc ++ [{ b with
                   LinkCount := 0, ReferenceCount := 0, FileType := 0, FileSize := 0,
                   Buffer := none, InodeNumber := (i : Int) }])

/-- The function `CreateDILB`, called once when the program starts. -/
def CreateDILB (blocks : Nat → Option INODE) : List INODE :=
  CreateDILB.loop blocks MAXINODE 1 []

/-- The state `main` works on: `InitialiseSuperBlock()` then `CreateDILB()`. -/
def start (blocks : Nat → Option INODE) : VFS :=
  { UFDTArr := List.replicate MAXINODE none
    SUPERBLOCKobj := { TotalInodes := MAXINODE, FreeInodes := MAXINODE }
    head := CreateDILB blocks }

/-- The loop of `GetFDFromName` over the slots from number `i` on: the number of
the first occupied slot whose inode carries the name, `-1` when the slots run
out. -/
def GetFDFromName.loop (head : List INODE) (name : String) :
    List (Option FILETABLE) → Nat → Option Int
  | [], _ => some (-1)
  | none :: rest, i => GetFDFromName.loop head name rest (i + 1)
  | some ft :: rest, i =>
    match head[ft.ptrinode]? with
    | none => none
    | some ino =>
      if ino.FileName == name then some (i : Int)
      else GetFDFromName.loop head name rest (i + 1)

/-- The function `GetFDFromName`. The name is a string: the code hands it to
`strcmp` without a `NULL` test. -/
def GetFDFromName (s : VFS) (name : String) : Option Int :=
  GetFDFromName.loop s.head name s.UFDTArr 0

/-- The function `rm_File`. -/
def rm_File (s : VFS) (name : String) : Option (Int × VFS) :=
  match GetFDFromName s name with
  | none => none
  | some fd =>
    if fd = -1 then some (-1, s)
    else
      match s.UFDTArr[fd.toNat]? with
      | none => none
      | some none => none
      | some (some ft) =>
        match s.head[ft.ptrinode]? with
        | none => none
        | some ino =>
          let ino1 : INODE := { ino with LinkCount := ino.LinkCount - 1 }
          let ino2 : INODE := if ino1.LinkCount = 0 then { ino1 with FileType := 0 } else ino1
          some (0,
            { UFDTArr := s.UFDTArr.set fd.toNat none
              SUPERBLOCKobj :=
                { s.SUPERBLOCKobj with FreeInodes := s.SUPERBLOCKobj.FreeInodes + 1 }
              head := s.head.set ft.ptrinode ino2 })

/-- The function `truncate_File`; its `memset` is a store of `MAXFILESIZE`
zeros at the start of the buffer. -/
def truncate_File (s : VFS) (name : String) : Option (Int × VFS) :=
  match GetFDFromName s name with
  | none => none
  | some fd =>
    if fd = -1 then some (-1, s)
    else
      match s.UFDTArr[fd.toNat]? with
      | none => none
      | some none => none
      | some (some ft) =>
        match s.head[ft.ptrinode]? with
        | none => none
        | some ino =>
          match ino.Buffer with
          | none => none
          | some buf =>
            match store buf 0 (List.replicate MAXFILESIZE.toNat 0) with
            | none => none
            | some buf1 =>
              some (0,
                { s with
                  UFDTArr :=
                    s.UFDTArr.set fd.toNat (some { ft with readoffset := 0, writeoffset := 0 })
                  head :=
                    s.head.set ft.ptrinode
                      { ino with Buffer := some buf1, FileActualSize := 0 } })

/-- The function `CloseFileByName(char *name)`. -/
def CloseFileByName_name (s : VFS) (name : String) : Option (Int × VFS) :=
  match GetFDFromName s name with
  | none => none
  | some i =>
    if i = -1 then some (-1, s)
    else (CloseFileByName s i.toNat).map (fun s1 => (0, s1))

/-- The loop of `CloseAllFile` from slot `i` on, `fuel` slots being left. -/
def CloseAllFile.loop : Nat → Nat → VFS → Option VFS
  | 0, _, s => some s
  | fuel + 1, i, s =>
    match s.UFDTArr[i]? with
    | none => none
    | some none => CloseAllFile.loop fuel (i + 1) s
    | some (some _) => (CloseFileByName s i).bind (CloseAllFile.loop fuel (i + 1))

/-- The function `CloseAllFile`. -/
def CloseAllFile (s : VFS) : Option VFS :=
  CloseAllFile.loop 50 0 s

/-- The function `ls_file`: `none` is the message that there are no files,
`some rows` the table it prints, one row (name, inode number, actual size, link
count) for each inode whose type is not 0, in list order. -/
def ls_file (s : VFS) : Option (List (String × Int × Int × Int)) :=
  if s.SUPERBLOCKobj.FreeInodes = MAXINODE then none
  else
    some ((s.head.filter (fun ino => ino.FileType != 0)).map
      (fun ino => (ino.FileName, ino.InodeNumber, ino.FileActualSize, ino.LinkCount)))

/-- One call of the engine, with its arguments (and, for `create` and `open`,
the blocks `malloc` hands out). -/
inductive Op where
  | create (name : Option String) (permission : Int) (ftBlock : Option FILETABLE)
      (bufBlock : Option (List Nat))
  | openFile (name : Option String) (mode : Int) (ftBlock : Option FILETABLE)
  | close (fd : Nat)
  | closeName (name : String)
  | closeAll
  | read (fd : Nat) (isize : Int)
  | write (fd : Nat) (arr : List Nat) (isize : Int)
  | seek (fd : Int) (size : Int) (from_ : Int)
  | unlink (name : String)
  | truncate (name : String)

/-- The state one call leaves; `none` when the call runs into undefined
behaviour. -/
def step (s : VFS) : Op → Option VFS
  | Op.create name permission ftBlock bufBlock =>
    (CreateFile s name permission ftBlock bufBlock).map (fun r => r.2)
  | Op.openFile name mode ftBlock => some (OpenFile s name mode ftBlock).2
  | Op.close fd => CloseFileByName s fd
  | Op.closeName name => (CloseFileByName_name s name).map (fun r => r.2)
  | Op.closeAll => CloseAllFile s
  | Op.read fd isize => (ReadFile s fd isize).map (fun r => r.2.2)
  | Op.write fd arr isize => (WriteFile s fd arr isize).map (fun r => r.2)
  | Op.seek fd size from_ => (LseekFile s fd size from_).map (fun r => r.2)
  | Op.unlink name => (rm_File s name).map (fun r => r.2)
  | Op.truncate name => (truncate_File s name).map (fun r => r.2)

/-- The state a finite sequence of calls leaves. -/
def run (s : VFS) : List Op → Option VFS
  | [] => some s
  | op :: ops => (step s op).bind (fun s1 => run s1 ops)

/-- The name, the type and the link count of every inode, in list order. -/
def registry (s : VFS) : List (String × Int × Int) :=
  s.head.map (fun ino => (ino.FileName, ino.FileType, ino.LinkCount))

/-- Whether a descriptor slot is occupied by an entry that references inode
number `k` of the list. -/
def refers (k : Nat) : Option FILETABLE → Bool
  | some ft => ft.ptrinode == k
  | none => false

/-- The number of occupied descriptor slots whose entry references inode number
`k` of the list. -/
def occupied (s : VFS) (k : Nat) : Nat :=
  s.UFDTArr.countP (refers k)

/-! ## Concrete states used in the examples -/

/-- A block of inode size whose bytes are all zero. -/
def zeroInode : INODE :=
  { FileName := "", InodeNumber := 0, FileSize := 0, FileActualSize := 0, FileType := 0,
    Buffer := none, LinkCount := 0, ReferenceCount := 0, Permission := 0 }

/-- A block of file-table size whose bytes are all zero. -/
def zeroTable : FILETABLE :=
  { readoffset := 0, writeoffset := 0, count := 0, mode := 0, ptrinode := 0 }

/-- A block of `MAXFILESIZE` bytes, all zero. -/
def zeroBuffer : List Nat := List.replicate 2048 0

/-- The state right after start-up. -/
def state0 : VFS := start (fun _ => some zeroInode)

/-- After `create a 3` on `state0`: descriptor 0 is open on `a`. -/
def stateA : VFS :=
  ((CreateFile state0 (some "a") 3 (some zeroTable) (some zeroBuffer)).map
    (fun r => r.2)).getD state0

/-- The entry of descriptor 0 in `stateA`. -/
def entryA : FILETABLE :=
  { readoffset := 0, writeoffset := 0, count := 1, mode := 3, ptrinode := 0 }

/-- The inode of `a` in `stateA`. -/
def inodeA : INODE :=
  { FileName := "a", InodeNumber := 1, FileSize := 2048, FileActualSize := 0, FileType := 1,
    Buffer := some zeroBuffer, LinkCount := 1, ReferenceCount := 1, Permission := 3 }

/-- The five characters of `hello`. -/
def hello : List Nat := [104, 101, 108, 108, 111]

/-- After `write a` with the data `hello` on `stateA`. -/
def stateHello : VFS := ((WriteFile stateA 0 hello 5).map (fun r => r.2)).getD stateA

/-- The entry of descriptor 0 in `stateHello`. -/
def entryHello : FILETABLE :=
  { readoffset := 0, writeoffset := 5, count := 1, mode := 3, ptrinode := 0 }

/-- The buffer of `a` in `stateHello`. -/
def bufferHello : List Nat := hello ++ List.replicate 2043 0

/-- The inode of `a` in `stateHello`. -/
def inodeHello : INODE :=
  { FileName := "a", InodeNumber := 1, FileSize := 2048, FileActualSize := 5, FileType := 1,
    Buffer := some bufferHello, LinkCount := 1, ReferenceCount := 1, Permission := 3 }

/-- After `open a 2` on `stateHello`: descriptor 1 is a second, write-only,
descriptor on `a`, with write offset 0. -/
def stateHello2 : VFS := (OpenFile stateHello (some "a") 2 (some zeroTable)).2

/-- After three one-byte writes through descriptor 0 of `stateA`: the byte 65,
the byte 0, the byte 66. -/
def stateGap : VFS :=
  (((WriteFile stateA 0 [65] 1).bind (fun r1 =>
      (WriteFile r1.2 0 [0] 1).bind (fun r2 =>
        (WriteFile r2.2 0 [66] 1).map (fun r3 => r3.2)))).getD stateA)

/-- The entry of descriptor 0 in `stateGap`. -/
def entryGap : FILETABLE :=
  { readoffset := 0, writeoffset := 3, count := 1, mode := 3, ptrinode := 0 }

/-- The buffer of `a` in `stateGap`. -/
def bufferGap : List Nat := [65, 0, 66] ++ List.replicate 2045 0

/-- The inode of `a` in `stateGap`. -/
def inodeGap : INODE :=
  { FileName := "a", InodeNumber := 1, FileSize := 2048, FileActualSize := 3, FileType := 1,
    Buffer := some bufferGap, LinkCount := 1, ReferenceCount := 1, Permission := 3 }

/-- After `open a 3` on `stateA`: descriptors 0 and 1 are both open on `a`,
whose reference count is 2. -/
def stateTwo : VFS := (OpenFile stateA (some "a") 3 (some zeroTable)).2

/-- The entry of descriptor 1 in `stateTwo`. -/
def entryTwo : FILETABLE :=
  { readoffset := 0, writeoffset := 0, count := 1, mode := 3, ptrinode := 0 }

/-- The inode of `a` in `stateTwo`. -/
def inodeTwo : INODE := { inodeA with ReferenceCount := 2 }

/-- A string of 2049 characters `x`. -/
def longData : List Nat := List.replicate 2049 120

/-- After `rm a` on `stateA`. -/
def stateGone : VFS := ((rm_File stateA "a").map (fun r => r.2)).getD stateA

/-- After `create a 2` on `state0` and a write of `hello`: descriptor 0 is a
write-only descriptor on `a`, at write offset 5, and the actual size is 5. -/
def stateW : VFS :=
  (((CreateFile state0 (some "a") 2 (some zeroTable) (some zeroBuffer)).bind
    (fun c => WriteFile c.2 0 hello 5)).map (fun r => r.2)).getD state0

/-- The state right after start-up when every fresh inode block holds the name
`?`. -/
def stateQ : VFS := start (fun _ => some { zeroInode with FileName := "?" })

/-- The shape of the tables once the first `k` descriptor slots and the first
`k` inodes are in use and the other slots and inodes, up to number 50, are
free, with a free inode count of `50 - k`. -/
def CreatedUpTo (s : VFS) (k : Nat) : Prop :=
  (∀ j : Nat, j < k → ∃ e, s.UFDTArr[j]? = some (some e)) ∧
  (∀ j : Nat, k ≤ j → j < 50 → s.UFDTArr[j]? = some none) ∧
  (∀ j : Nat, j < k → ∃ ino, s.head[j]? = some ino ∧ ino.FileType ≠ 0) ∧
  (∀ j : Nat, k ≤ j → j < 50 → ∃ ino, s.head[j]? = some ino ∧ ino.FileType = 0) ∧
  s.SUPERBLOCKobj.FreeInodes = 50 - (k : Int)

/-- The call `create a 3` with zero-filled blocks. -/
def createA : Op := Op.create (some "a") 3 (some zeroTable) (some zeroBuffer)

/-- The call `open a 3` with a zero-filled block. -/
def openA : Op := Op.openFile (some "a") 3 (some zeroTable)

/-- The call `create b 3` with zero-filled blocks. -/
def createB : Op := Op.create (some "b") 3 (some zeroTable) (some zeroBuffer)

/-- After `create a 3` and `create b 3` on `state0`. -/
def stateAB : VFS := (run state0 [createA, createB]).getD state0

/-- The inode of `b` in `stateAB`. -/
def inodeB : INODE :=
  { FileName := "b", InodeNumber := 2, FileSize := 2048, FileActualSize := 0, FileType := 1,
    Buffer := some zeroBuffer, LinkCount := 1, ReferenceCount := 1, Permission := 3 }

/-- The call `close 0`. -/
def closeZero : Op := Op.close 0

/-- After `create a 1` on `state0`: descriptor 0 is a read-only descriptor on
`a`. -/
def stateR : VFS :=
  ((CreateFile state0 (some "a") 1 (some zeroTable) (some zeroBuffer)).map
    (fun r => r.2)).getD state0

/-- A name of 60 characters `f`. -/
def longName : String := String.mk (List.replicate 60 'f')

/-- The call `create` with the name `longName`, permission 3 and zero-filled
blocks. -/
def createLong : Op := Op.create (some longName) 3 (some zeroTable) (some zeroBuffer)

/-- A sum with 0 does not wrap. -/
theorem addInt_zero (b : Int) : addInt 0 b = b := by
  unfold addInt
  split <;> omega

/-- A sum that fits in an `int` does not wrap. -/
theorem addInt_of_bounds (a b : Int) (h1 : -2147483648 ≤ a + b) (h2 : a + b ≤ 2147483647) :
    addInt a b = a + b := by
  unfold addInt
  split <;> omega

/-! ## Lists, `strncpy` and `store` -/

/-- A copy of `n` bytes stores `n` bytes. -/
theorem strncpy_length (src : List Nat) (n : Nat) (out : List Nat)
    (h : strncpy src n = some out) : out.length = n := by
  induction src generalizing n out with
  | nil =>
    cases n with
    | zero => simp [strncpy] at h; simp [h]
    | succ n => simp [strncpy] at h
  | cons b rest ih =>
    cases n with
    | zero => simp [strncpy] at h; simp [h]
    | succ n =>
      cases b with
      | zero => simp [strncpy] at h; simp [← h]
      | succ b =>
        simp only [strncpy, Option.map_eq_some'] at h
        obtain ⟨o, ho, rfl⟩ := h
        simp [ih n o ho]

/-- A copy of at most as many bytes as the source object holds is defined. -/
theorem strncpy_defined (src : List Nat) (n : Nat) (h : n ≤ src.length) :
    ∃ out, strncpy src n = some out := by
  induction src generalizing n with
  | nil =>
    have : n = 0 := by simpa using h
    subst this
    exact ⟨[], by simp [strncpy]⟩
  | cons b rest ih =>
    cases n with
    | zero => exact ⟨[], by simp [strncpy]⟩
    | succ n =>
      cases b with
      | zero => exact ⟨List.replicate (n + 1) 0, by simp [strncpy]⟩
      | succ b =>
        obtain ⟨o, ho⟩ := ih n (by simpa using h)
        exact ⟨(b + 1) :: o, by simp [strncpy, ho]⟩

/-- A copy whose source holds no terminator among its first `n` bytes stores
those `n` bytes. -/
theorem strncpy_nulfree (src : List Nat) (n : Nat) (h : n ≤ src.length)
    (hz : ∀ b ∈ src.take n, b ≠ 0) : strncpy src n = some (src.take n) := by
  induction src generalizing n with
  | nil =>
    have : n = 0 := by simpa using h
    subst this
    simp [strncpy]
  | cons b rest ih =>
    cases n with
    | zero => simp [strncpy]
    | succ n =>
      cases b with
      | zero => simp at hz
      | succ b =>
        have hn : n ≤ rest.length := by simpa using h
        have hz2 : ∀ c ∈ rest.take n, c ≠ 0 := by
          intro c hc
          exact hz c (by simp [hc])
        simp [strncpy, ih n hn hz2]

/-- Storing bytes in an object does not change its size. -/
theorem store_length (dest : List Nat) (off : Nat) (chunk out : List Nat)
    (h : store dest off chunk = some out) : out.length = dest.length := by
  unfold store at h
  split_ifs at h with hle
  simp only [Option.some.injEq] at h
  subst h
  simp
  omega

/-- The positions a store writes hold the bytes stored. -/
theorem store_inside (dest : List Nat) (off : Nat) (chunk out : List Nat)
    (h : store dest off chunk = some out) (i : Nat) (hi : i < chunk.length) :
    out[off + i]? = chunk[i]? := by
  unfold store at h
  split_ifs at h with hle
  simp only [Option.some.injEq] at h
  subst h
  have h1 : (dest.take off).length = off := by simp; omega
  rw [List.append_assoc, List.getElem?_append_right (by omega)]
  simp [h1, List.getElem?_append_left hi]

/-- The positions a store does not write keep their bytes. -/
theorem store_outside (dest : List Nat) (off : Nat) (chunk out : List Nat)
    (h : store dest off chunk = some out) (j : Nat) (hj : j < off ∨ off + chunk.length ≤ j) :
    out[j]? = dest[j]? := by
  unfold store at h
  split_ifs at h with hle
  simp only [Option.some.injEq] at h
  subst h
  have h1 : (dest.take off).length = off := by simp; omega
  rcases hj with hj | hj
  · rw [List.append_assoc, List.getElem?_append_left (by omega)]
    simp [List.getElem?_take, hj]
  · rw [List.getElem?_append_right (by simp; omega)]
    simp [h1]
    congr 1
    omega

/-- What a successful linear scan returns: the first position that passes the
test. -/
theorem findIdx?_first {α : Type} (l : List α) (p : α → Bool) (i : Nat)
    (h : l.findIdx? p = some i) :
    (∃ x, l[i]? = some x ∧ p x = true) ∧ ∀ j, j < i → ∃ y, l[j]? = some y ∧ p y = false := by
  rw [List.findIdx?_eq_some_iff_getElem] at h
  obtain ⟨hi, hp, hlt⟩ := h
  refine ⟨⟨l[i], by simp [hi], hp⟩, ?_⟩
  intro j hj
  have hjl : j < l.length := Nat.lt_trans hj hi
  exact ⟨l[j], by simp [hjl], by simpa using hlt j hj⟩

/-- Reading back the position that was just assigned. -/
theorem set_getElem?_self {α : Type} (l : List α) (i : Nat) (a x : α) (h : l[i]? = some x) :
    (l.set i a)[i]? = some a := by
  have hi : i < l.length := by
    by_contra hc
    simp [List.getElem?_eq_none (Nat.le_of_not_lt hc)] at h
  simp [List.getElem?_set, hi]

/-- Assigning one position leaves the others as they were. -/
theorem set_getElem?_other {α : Type} (l : List α) (i j : Nat) (a : α) (h : i ≠ j) :
    (l.set i a)[j]? = l[j]? := by
  simp [List.getElem?_set, h]

/-- The run of `WriteFile` past its four checks, when the copy and the store
are both defined. -/
theorem WriteFile_run (s : VFS) (fd : Nat) (ft : FILETABLE) (ino : INODE)
    (buf arr chunk buf1 : List Nat) (isize n : Int)
    (hfd : s.UFDTArr[fd]? = some (some ft))
    (hmode : ft.mode = WRITE ∨ ft.mode = READ + WRITE)
    (hino : s.head[ft.ptrinode]? = some ino)
    (hperm : ino.Permission = WRITE ∨ ino.Permission = READ + WRITE)
    (hfull : ft.writeoffset ≠ MAXFILESIZE)
    (hreg : ino.FileType = REGULAR)
    (hbuf : ino.Buffer = some buf)
    (hn : n = if addInt ft.writeoffset isize > MAXFILESIZE then MAXFILESIZE - ft.writeoffset
              else isize)
    (hw : 0 ≤ ft.writeoffset) (hn0 : 0 ≤ n)
    (hcopy : strncpy arr n.toNat = some chunk)
    (hstore : store buf ft.writeoffset.toNat chunk = some buf1) :
    WriteFile s fd arr isize =
      some (n,
        { s with
          UFDTArr := s.UFDTArr.set fd (some { ft with writeoffset := addInt ft.writeoffset n })
          head :=
            s.head.set ft.ptrinode
              { ino with Buffer := some buf1, FileActualSize := addInt ino.FileActualSize n } }) := by
  have hm : ¬ (ft.mode ≠ WRITE ∧ ft.mode ≠ READ + WRITE) := by
    rcases hmode with h | h <;> simp [h]
  have hp : ¬ (ino.Permission ≠ WRITE ∧ ino.Permission ≠ READ + WRITE) := by
    rcases hperm with h | h <;> simp [h]
  have hneg : ¬ (ft.writeoffset < 0 ∨ n < 0) := by omega
  subst hn
  unfold WriteFile
  simp only [hfd, hino, hbuf]
  rw [if_neg hm, if_neg hp, if_neg hfull, if_neg (by simp [hreg])]
  rw [if_neg hneg]
  simp only [hcopy, hstore]


/-- The run of `ReadFile` past its five checks, with the copy defined. -/
theorem ReadFile_run (s : VFS) (fd : Nat) (ft : FILETABLE) (ino : INODE)
    (buf out : List Nat) (isize n : Int)
    (hfd : s.UFDTArr[fd]? = some (some ft))
    (hmode : ft.mode = READ ∨ ft.mode = READ + WRITE)
    (hino : s.head[ft.ptrinode]? = some ino)
    (hperm : ino.Permission = READ ∨ ino.Permission = READ + WRITE)
    (heof : ft.readoffset ≠ ino.FileActualSize)
    (hreg : ino.FileType = REGULAR)
    (hbuf : ino.Buffer = some buf)
    (hn : n = if ino.FileActualSize - ft.readoffset < isize then
                ino.FileActualSize - ft.readoffset else isize)
    (hr : 0 ≤ ft.readoffset) (hn0 : 0 ≤ n)
    (hcopy : strncpy (buf.drop ft.readoffset.toNat) n.toNat = some out) :
    ReadFile s fd isize =
      some (n, out,
        { s with
          UFDTArr := s.UFDTArr.set fd (some { ft with readoffset := ft.readoffset + n }) }) := by
  have hm : ¬ (ft.mode ≠ READ ∧ ft.mode ≠ READ + WRITE) := by
    rcases hmode with h | h <;> simp [h]
  have hp : ¬ (ino.Permission ≠ READ ∧ ino.Permission ≠ READ + WRITE) := by
    rcases hperm with h | h <;> simp [h]
  have hneg : ¬ (ft.readoffset < 0 ∨ n < 0) := by omega
  subst hn
  unfold ReadFile
  simp only [hfd, hino, hbuf]
  rw [if_neg hm, if_neg hp, if_neg heof, if_neg (by simp [hreg])]
  rw [if_neg hneg]
  simp only [hcopy]

/-! ## `CreateFile` -/

/-- The shape of a successful `CreateFile`: the name fits the array, and the
two scans chose the slot and the inode; the state it leaves. -/
theorem CreateFile_success (s : VFS) (name : Option String) (permission : Int)
    (ftBlock : Option FILETABLE) (bufBlock : Option (List Nat)) (r : Int × VFS)
    (hres : CreateFile s name permission ftBlock bufBlock = some r) (hok : 0 ≤ r.1) :
    ∃ (i t : Nat) (nm : String) (temp : INODE) (buf : List Nat),
      name = some nm ∧ nm.utf8ByteSize < 50 ∧ bufBlock = some buf ∧
      s.UFDTArr.findIdx? (fun e => e.isNone) = some i ∧
      s.head.findIdx? (fun ino => ino.FileType == 0) = some t ∧
      s.head[t]? = some temp ∧
      r =
        ((i : Int),
          { UFDTArr :=
              s.UFDTArr.set i
                (some { count := 1, mode := permission, readoffset := 0, writeoffset := 0,
                        ptrinode := t })
            SUPERBLOCKobj :=
              { s.SUPERBLOCKobj with FreeInodes := s.SUPERBLOCKobj.FreeInodes - 1 }
            head :=
              s.head.set t
                { temp with
                  FileName := nm, FileType := REGULAR, ReferenceCount := 1, LinkCount := 1,
                  FileSize := MAXFILESIZE, FileActualSize := 0, Permission := permission,
                  Buffer := some buf } }) := by
  unfold CreateFile at hres
  cases name with
  | none =>
    cases hres
    simp at hok
  | some nm =>
    simp only at hres
    split at hres
    · cases hres
      simp at hok
    · split at hres
      · cases hres
        simp at hok
      · split at hres
        · cases hres
          simp at hok
        · split at hres
          · cases hres
            simp at hok
          · rename_i t ht
            split at hres
            · cases hres
              simp at hok
            · rename_i temp htemp
              split at hres
              · cases hres
                simp at hok
              · rename_i i hi
                cases ftBlock with
                | none =>
                  cases hres
                  simp at hok
                | some blk =>
                  simp only at hres
                  split at hres
                  · cases hres
                  · rename_i hfit
                    cases bufBlock with
                    | none =>
                      cases hres
                      simp at hok
                    | some buf =>
                      cases hres
                      exact ⟨i, t, nm, temp, buf, rfl, by omega, rfl, hi, ht, htemp, rfl⟩

/-- C1, the code at the failing input: right after start-up, `create` with a
name of 60 characters and permission 3 passes every check and reaches the
`strcpy` of the name, which writes 61 bytes into the 50 bytes of `FileName`;
the call has no defined result, while the same call with the name `a` returns
descriptor 0 and stores the name. -/
theorem C1_create_long_name :
    longName.utf8ByteSize = 60 ∧
    CreateFile state0 (some longName) 3 (some zeroTable) (some zeroBuffer) = none ∧
    (CreateFile state0 (some "a") 3 (some zeroTable) (some zeroBuffer)).map
        (fun r => (r.1, r.2.head[0]?.map (fun ino => ino.FileName))) = some (0, some "a") := by
  refine ⟨?_, ?_, ?_⟩ <;> decide!

/-! ## `WriteFile` -/

/-- C2, the code at the failing input: descriptor 0 of `stateA` is open with
mode 3 on a regular inode of permission 3 at write offset 0; writing the three
bytes `65, 0, 66` returns 3, yet the buffer then starts with `65, 0, 0`, not
with the three bytes of the data. -/
theorem C2_write_zero_byte :
    stateA.UFDTArr[0]? = some (some entryA) ∧ entryA.mode = READ + WRITE ∧
    entryA.writeoffset = 0 ∧ stateA.head[entryA.ptrinode]? = some inodeA ∧
    inodeA.FileType = REGULAR ∧ inodeA.Permission = READ + WRITE ∧
    (WriteFile stateA 0 [65, 0, 66] 3).map
        (fun r => (r.1, (r.2.head[0]?.bind (fun ino => ino.Buffer)).map (fun b => b.take 3)))
      = some (3, some [65, 0, 0]) ∧
    [65, 0, 0] ≠ [65, 0, 66] := by
  refine ⟨?_, ?_, ?_, ?_, ?_, ?_, ?_, ?_⟩ <;> decide!

/-- The run of `WriteFile` on a descriptor whose write offset is `MAXFILESIZE`. -/
theorem WriteFile_full (s : VFS) (fd : Nat) (ft : FILETABLE) (ino : INODE)
    (arr : List Nat) (isize : Int)
    (hfd : s.UFDTArr[fd]? = some (some ft))
    (hmode : ft.mode = WRITE ∨ ft.mode = READ + WRITE)
    (hino : s.head[ft.ptrinode]? = some ino)
    (hperm : ino.Permission = WRITE ∨ ino.Permission = READ + WRITE)
    (hfull : ft.writeoffset = MAXFILESIZE) :
    WriteFile s fd arr isize = some (-2, s) := by
  have hm : ¬ (ft.mode ≠ WRITE ∧ ft.mode ≠ READ + WRITE) := by
    rcases hmode with h | h <;> simp [h]
  have hp : ¬ (ino.Permission ≠ WRITE ∧ ino.Permission ≠ READ + WRITE) := by
    rcases hperm with h | h <;> simp [h]
  unfold WriteFile
  simp only [hfd, hino]
  rw [if_neg hm, if_neg hp, if_pos hfull]

/-- C3, the code at the failing input: in `stateHello2` the file `a` has actual
size 5 and descriptor 1 has write offset 0; writing one byte through
descriptor 1 returns 1, moves that write offset to 1 and leaves the actual size
at 6, where the claim gives `max 5 1 = 5`. -/
theorem C3_actual_size_after_overwrite :
    stateHello2.head[0]?.map (fun ino => ino.FileActualSize) = some 5 ∧
    stateHello2.UFDTArr[1]?.map (fun e => e.map (fun ft => (ft.ptrinode, ft.writeoffset)))
      = some (some (0, 0)) ∧
    (WriteFile stateHello2 1 [120] 1).map
        (fun r => (r.1,
          r.2.UFDTArr[1]?.map (fun e => e.map (fun ft => ft.writeoffset)),
          r.2.head[0]?.map (fun ino => ino.FileActualSize)))
      = some (1, some (some 1), some 6) := by
  refine ⟨?_, ?_, ?_⟩ <;> decide!

/-! ## `ReadFile` -/

/-- C4, the code at the failing input: in `stateGap` descriptor 0 is open with
mode 3 on a regular inode of permission 3, read offset 0 and actual size 3, and
the buffer starts with `65, 0, 66`; reading 3 bytes returns 3 and hands back
`65, 0, 0`. -/
theorem C4_read_zero_byte :
    stateGap.UFDTArr[0]? = some (some entryGap) ∧ entryGap.mode = READ + WRITE ∧
    entryGap.readoffset = 0 ∧ stateGap.head[entryGap.ptrinode]? = some inodeGap ∧
    inodeGap.FileType = REGULAR ∧ inodeGap.Permission = READ + WRITE ∧
    inodeGap.FileActualSize = 3 ∧ inodeGap.Buffer = some bufferGap ∧
    (bufferGap.drop 0).take 3 = [65, 0, 66] ∧
    (ReadFile stateGap 0 3).map (fun r => (r.1, r.2.1)) = some (3, [65, 0, 0]) ∧
    [65, 0, 0] ≠ [65, 0, 66] := by
  refine ⟨?_, ?_, ?_, ?_, ?_, ?_, ?_, ?_, ?_, ?_, ?_⟩ <;> decide!

/-! ## Steps of a run, with the entries they leave -/

/-- A run of `WriteFile`, and what the descriptor and the inode hold after it. -/
theorem WriteFile_step (s : VFS) (fd : Nat) (ft : FILETABLE) (ino : INODE)
    (buf arr chunk buf1 : List Nat) (isize n : Int)
    (hfd : s.UFDTArr[fd]? = some (some ft))
    (hmode : ft.mode = WRITE ∨ ft.mode = READ + WRITE)
    (hino : s.head[ft.ptrinode]? = some ino)
    (hperm : ino.Permission = WRITE ∨ ino.Permission = READ + WRITE)
    (hfull : ft.writeoffset ≠ MAXFILESIZE)
    (hreg : ino.FileType = REGULAR)
    (hbuf : ino.Buffer = some buf)
    (hn : n = if addInt ft.writeoffset isize > MAXFILESIZE then MAXFILESIZE - ft.writeoffset
              else isize)
    (hw : 0 ≤ ft.writeoffset) (hn0 : 0 ≤ n)
    (hcopy : strncpy arr n.toNat = some chunk)
    (hstore : store buf ft.writeoffset.toNat chunk = some buf1) :
    ∃ s1 : VFS, WriteFile s fd arr isize = some (n, s1) ∧
      s1.UFDTArr[fd]? = some (some { ft with writeoffset := addInt ft.writeoffset n }) ∧
      s1.head[ft.ptrinode]?
        = some { ino with Buffer := some buf1, FileActualSize := addInt ino.FileActualSize n } :=
  ⟨_, WriteFile_run s fd ft ino buf arr chunk buf1 isize n hfd hmode hino hperm hfull hreg hbuf
      hn hw hn0 hcopy hstore,
    set_getElem?_self _ _ _ _ hfd, set_getElem?_self _ _ _ _ hino⟩

/-- The run of `LseekFile` from `START` on a descriptor open for reading. -/
theorem LseekFile_read_start (s : VFS) (fd : Nat) (ft : FILETABLE) (ino : INODE) (size : Int)
    (hfd : s.UFDTArr[fd]? = some (some ft))
    (hmode : ft.mode = READ ∨ ft.mode = READ + WRITE)
    (hino : s.head[ft.ptrinode]? = some ino)
    (h0 : 0 ≤ size) (h1 : size ≤ ino.FileActualSize) :
    ∃ s1 : VFS, LseekFile s (fd : Int) size START = some (0, s1) ∧
      s1.UFDTArr[fd]? = some (some { ft with readoffset := size }) ∧
      s1.head = s.head := by
  refine ⟨{ s with UFDTArr := s.UFDTArr.set fd (some { ft with readoffset := size }) }, ?_,
    set_getElem?_self _ _ _ _ hfd, rfl⟩
  unfold LseekFile
  rw [if_neg (by simp [START])]
  simp only [Int.toNat_ofNat, hfd, hino]
  rw [if_pos hmode, if_neg (by simp [START, CURRENT]), if_pos True.intro, if_neg (by omega),
    if_neg (by omega)]

/-- Copying a zero-free string that is the front of a longer object. -/
theorem strncpy_prefix (p rest : List Nat) (hz : ∀ b ∈ p, b ≠ 0) :
    strncpy (p ++ rest) p.length = some p := by
  have h := strncpy_nulfree (p ++ rest) p.length (by simp) (by simpa using hz)
  simpa using h

/-- C5, the code at the failing input: `create a 3` right after start-up
returns descriptor 0 (the state is `stateA`); for the 3-byte payload
`65, 0, 66` the write returns 3 and the seek returns 0, yet the read of 3 bytes
returns 3 and hands back `65, 0, 0`. -/
theorem C5_round_trip_zero_byte :
    CreateFile state0 (some "a") 3 (some zeroTable) (some zeroBuffer) = some (0, stateA) ∧
    ((WriteFile stateA 0 [65, 0, 66] 3).bind (fun w =>
        (LseekFile w.2 0 0 START).bind (fun k =>
          (ReadFile k.2 0 3).map (fun r => (w.1, k.1, r.1, r.2.1)))))
      = some (3, 0, 3, [65, 0, 0]) ∧
    [65, 0, 0] ≠ [65, 0, 66] := by
  refine ⟨?_, ?_, ?_⟩ <;> decide!

/-- C6: for a descriptor `d` open with mode 2 or 3 on a regular inode of
permission 2 or 3 (its 2048-byte buffer allocated) at write offset 0, writing
`2048 + k` bytes returns exactly 2048, and after it every write through `d`,
whatever the data and the count, returns -2 (file full) and leaves the whole
state as it was. -/
theorem C6_fill_then_full (s : VFS) (d : Nat) (ft : FILETABLE) (ino : INODE)
    (buf data : List Nat) (k : Nat)
    (hfd : s.UFDTArr[d]? = some (some ft))
    (hmode : ft.mode = WRITE ∨ ft.mode = READ + WRITE)
    (hino : s.head[ft.ptrinode]? = some ino)
    (hreg : ino.FileType = REGULAR)
    (hperm : ino.Permission = WRITE ∨ ino.Permission = READ + WRITE)
    (hbuf : ino.Buffer = some buf) (hlen : buf.length = 2048)
    (hw : ft.writeoffset = 0)
    (hdata : data.length = 2048 + k) :
    ∃ s1 : VFS, WriteFile s d data ((2048 + k : Nat) : Int) = some (2048, s1) ∧
      ∀ (data2 : List Nat) (n2 : Int), WriteFile s1 d data2 n2 = some (-2, s1) := by
  obtain ⟨chunk, hcopy⟩ := strncpy_defined data 2048 (by omega)
  have hcl : chunk.length = 2048 := strncpy_length _ _ _ hcopy
  obtain ⟨buf1, hstore⟩ : ∃ b, store buf 0 chunk = some b := by
    refine ⟨buf.take 0 ++ chunk ++ buf.drop (0 + chunk.length), ?_⟩
    unfold store
    rw [if_pos (by omega)]
  obtain ⟨s1, hrun, h1fd, h1ino⟩ :=
    WriteFile_step s d ft ino buf data chunk buf1 ((2048 + k : Nat) : Int) 2048
      hfd hmode hino hperm (by rw [hw]; simp [MAXFILESIZE]) hreg hbuf
      (by rw [hw, addInt_zero]; simp only [MAXFILESIZE]; split_ifs <;> omega) (by omega)
      (by omega) (by simpa using hcopy) (by rw [hw]; simpa using hstore)
  refine ⟨s1, hrun, ?_⟩
  intro data2 n2
  exact WriteFile_full s1 d _ _ data2 n2 h1fd hmode h1ino hperm
    (by simp [hw, addInt_zero, MAXFILESIZE])

/-- C6 at descriptor 0 of `stateA` and a string of 2049 characters. -/
theorem C6_fill_then_full_witness :
    longData.length = 2048 + 1 ∧
    ∃ s1 : VFS, WriteFile stateA 0 longData ((2048 + 1 : Nat) : Int) = some (2048, s1) ∧
      ∀ (data2 : List Nat) (n2 : Int), WriteFile s1 0 data2 n2 = some (-2, s1) :=
  ⟨List.length_replicate 2049 120,
   C6_fill_then_full stateA 0 entryA inodeA zeroBuffer longData 1 (by decide!) (by decide)
     (by decide!) (by decide) (by decide) rfl (List.length_replicate 2048 0) rfl
     (List.length_replicate 2049 120)⟩

/-! ## `OpenFile` -/

/-- A scan for a `NULL` slot finds one when there is one. -/
theorem findIdx?_isNone_of_empty (l : List (Option FILETABLE)) (i : Nat)
    (h : l[i]? = some none) : ∃ j, l.findIdx? (fun e => e.isNone) = some j := by
  cases hf : l.findIdx? (fun e => e.isNone) with
  | some j => exact ⟨j, rfl⟩
  | none =>
    rw [List.findIdx?_eq_none_iff] at hf
    have hmem : (none : Option FILETABLE) ∈ l := List.getElem?_mem h
    have := hf none hmem
    simp at this

/-- C7: when `name` resolves to an inode of permission `p` in `{1, 2, 3}` and
`m ≥ 1`, `OpenFile name m` returns -3 (permission denied) exactly when
`p & m ≠ m`, and then the state is unchanged; in particular mode 2 on a file of
permission 1 is denied, and mode 3 on a file of permission 3 succeeds whenever
some descriptor slot is empty (the allocator handing out the entry). -/
theorem C7_open_permission (s : VFS) (nm : String) (t : Nat) (ino : INODE) (m : Int)
    (hres : Get_Inode s (some nm) = some t) (hino : s.head[t]? = some ino)
    (_hp : ino.Permission = 1 ∨ ino.Permission = 2 ∨ ino.Permission = 3) (hm : 1 ≤ m) :
    (∀ blk : Option FILETABLE,
      ((OpenFile s (some nm) m blk).1 = -3 ↔ Int.land ino.Permission m ≠ m) ∧
      ((OpenFile s (some nm) m blk).1 = -3 → (OpenFile s (some nm) m blk).2 = s)) ∧
    (ino.Permission = 1 → ∀ blk : Option FILETABLE, (OpenFile s (some nm) 2 blk).1 = -3) ∧
    (ino.Permission = 3 → (∃ i : Nat, s.UFDTArr[i]? = some none) →
      ∀ b : FILETABLE, 0 ≤ (OpenFile s (some nm) 3 (some b)).1) := by
  refine ⟨?_, ?_, ?_⟩
  · intro blk
    unfold OpenFile
    simp only [hres, hino]
    rw [if_neg (by omega)]
    by_cases hl : Int.land ino.Permission m = m
    · rw [if_neg (by simp [hl])]
      cases hf : s.UFDTArr.findIdx? (fun e => e.isNone) with
      | none => simp [hl]
      | some i =>
        cases blk with
        | none => simp [hl]
        | some b =>
          have hne : (i : Int) ≠ -3 := by omega
          simp [hl, hne]
    · rw [if_pos hl]
      simp [hl]
  · intro hp1 blk
    unfold OpenFile
    simp only [hres, hino]
    rw [if_neg (by decide), hp1, if_pos (by decide)]
  · intro hp3 hempty b
    obtain ⟨i, hi⟩ := hempty
    obtain ⟨j, hj⟩ := findIdx?_isNone_of_empty _ _ hi
    unfold OpenFile
    simp only [hres, hino, hj]
    rw [if_neg (by decide), hp3, if_neg (by decide)]
    simp

/-- C7 at the file `a` of `stateA` (permission 3) and mode 2. -/
theorem C7_open_permission_witness :
    Get_Inode stateA (some "a") = some 0 ∧
    (∀ blk : Option FILETABLE,
      ((OpenFile stateA (some "a") 2 blk).1 = -3 ↔ Int.land inodeA.Permission 2 ≠ 2) ∧
      ((OpenFile stateA (some "a") 2 blk).1 = -3 → (OpenFile stateA (some "a") 2 blk).2 = stateA)) ∧
    (inodeA.Permission = 1 →
      ∀ blk : Option FILETABLE, (OpenFile stateA (some "a") 2 blk).1 = -3) ∧
    (inodeA.Permission = 3 → (∃ i : Nat, stateA.UFDTArr[i]? = some none) →
      ∀ b : FILETABLE, 0 ≤ (OpenFile stateA (some "a") 3 (some b)).1) :=
  ⟨by decide,
   C7_open_permission stateA "a" 0 inodeA 2 (by decide) (by decide!) (by decide) (by decide)⟩

/-- The shape of a successful `OpenFile`: the inode found, the slot chosen and
the state it leaves. -/
theorem OpenFile_success (s : VFS) (name : Option String) (m : Int)
    (ftBlock : Option FILETABLE) (hok : 0 ≤ (OpenFile s name m ftBlock).1) :
    ∃ (i t : Nat) (temp : INODE) (blk : FILETABLE),
      Get_Inode s name = some t ∧ s.head[t]? = some temp ∧ ftBlock = some blk ∧
      s.UFDTArr.findIdx? (fun e => e.isNone) = some i ∧
      OpenFile s name m ftBlock =
        ((i : Int),
          { s with
            UFDTArr :=
              s.UFDTArr.set i
                (some
                  { (if m = READ + WRITE then
                        { blk with count := 1, mode := m, readoffset := 0, writeoffset := 0 }
                      else if m = READ then { blk with count := 1, mode := m, readoffset := 0 }
                      else if m = WRITE then { blk with count := 1, mode := m, writeoffset := 0 }
                      else { blk with count := 1, mode := m } : FILETABLE) with
                    ptrinode := t })
            head := s.head.set t { temp with ReferenceCount := temp.ReferenceCount + 1 } }) := by
  cases name with
  | none => simp [OpenFile] at hok
  | some nm =>
    by_cases h1 : m ≤ 0
    · simp [OpenFile, h1] at hok
    · cases ht : Get_Inode s (some nm) with
      | none => simp [OpenFile, h1, ht] at hok
      | some t =>
        cases htemp : s.head[t]? with
        | none => simp [OpenFile, h1, ht, htemp] at hok
        | some temp =>
          by_cases h2 : Int.land temp.Permission m ≠ m
          · simp [OpenFile, h1, ht, htemp, h2] at hok
          · cases hi : s.UFDTArr.findIdx? (fun e => e.isNone) with
            | none => simp [OpenFile, h1, ht, htemp, h2, hi] at hok
            | some i =>
              cases ftBlock with
              | none => simp [OpenFile, h1, ht, htemp, h2, hi] at hok
              | some blk =>
                refine ⟨i, t, temp, blk, rfl, htemp, rfl, rfl, ?_⟩
                unfold OpenFile
                simp only [ht, htemp, hi]
                rw [if_neg h1, if_neg h2]

/-- C8: when `OpenFile name m` with `m` in `{1, 2, 3}` succeeds and returns `d`,
`d` is the lowest-numbered descriptor slot that was empty before the call, its
entry has mode `m`, read offset 0 when `m` includes read and write offset 0 when
`m` includes write, the inode the name resolves to has its reference count
raised by exactly one and no other field changed, and every other descriptor
entry, every other inode and the superblock are unchanged. -/
theorem C8_open_success (s : VFS) (name : Option String) (m : Int)
    (ftBlock : Option FILETABLE)
    (hm : m = 1 ∨ m = 2 ∨ m = 3)
    (hok : 0 ≤ (OpenFile s name m ftBlock).1) :
    ∃ (i t : Nat) (temp : INODE) (ft : FILETABLE),
      (OpenFile s name m ftBlock).1 = (i : Int) ∧
      Get_Inode s name = some t ∧ s.head[t]? = some temp ∧
      s.UFDTArr[i]? = some none ∧
      (∀ j, j < i → ∃ e, s.UFDTArr[j]? = some (some e)) ∧
      (OpenFile s name m ftBlock).2.UFDTArr[i]? = some (some ft) ∧
      ft.mode = m ∧ ft.ptrinode = t ∧
      ((m = 1 ∨ m = 3) → ft.readoffset = 0) ∧
      ((m = 2 ∨ m = 3) → ft.writeoffset = 0) ∧
      (OpenFile s name m ftBlock).2.head[t]?
        = some { temp with ReferenceCount := temp.ReferenceCount + 1 } ∧
      (∀ j, j ≠ i → (OpenFile s name m ftBlock).2.UFDTArr[j]? = s.UFDTArr[j]?) ∧
      (∀ j, j ≠ t → (OpenFile s name m ftBlock).2.head[j]? = s.head[j]?) ∧
      (OpenFile s name m ftBlock).2.SUPERBLOCKobj = s.SUPERBLOCKobj := by
  obtain ⟨i, t, temp, blk, ht, htemp, _, hi, hres⟩ := OpenFile_success s name m ftBlock hok
  obtain ⟨⟨e, he, hen⟩, hbefore⟩ := findIdx?_first _ _ _ hi
  have hen2 : e = none := by simpa using hen
  subst hen2
  rw [hres]
  refine ⟨i, t, temp, _, rfl, ht, htemp, he, ?_, set_getElem?_self _ _ _ _ he, ?_, rfl, ?_, ?_,
    set_getElem?_self _ _ _ _ htemp, ?_, ?_, rfl⟩
  · intro j hj
    obtain ⟨y, hy, hyp⟩ := hbefore j hj
    cases y with
    | none => simp at hyp
    | some e => exact ⟨e, hy⟩
  · rcases hm with h | h | h <;> subst h <;> simp [READ, WRITE]
  · intro h
    rcases h with h | h <;> subst h <;> simp [READ, WRITE]
  · intro h
    rcases h with h | h <;> subst h <;> simp [READ, WRITE]
  · intro j hj
    exact set_getElem?_other _ _ _ _ (Ne.symm hj)
  · intro j hj
    exact set_getElem?_other _ _ _ _ (Ne.symm hj)

/-- C8 at `open a 3` on `stateA`. -/
theorem C8_open_success_witness :
    0 ≤ (OpenFile stateA (some "a") 3 (some zeroTable)).1 ∧
    ∃ (i t : Nat) (temp : INODE) (ft : FILETABLE),
      (OpenFile stateA (some "a") 3 (some zeroTable)).1 = (i : Int) ∧
      Get_Inode stateA (some "a") = some t ∧ stateA.head[t]? = some temp ∧
      stateA.UFDTArr[i]? = some none ∧
      (∀ j, j < i → ∃ e, stateA.UFDTArr[j]? = some (some e)) ∧
      (OpenFile stateA (some "a") 3 (some zeroTable)).2.UFDTArr[i]? = some (some ft) ∧
      ft.mode = 3 ∧ ft.ptrinode = t ∧
      (((3 : Int) = 1 ∨ (3 : Int) = 3) → ft.readoffset = 0) ∧
      (((3 : Int) = 2 ∨ (3 : Int) = 3) → ft.writeoffset = 0) ∧
      (OpenFile stateA (some "a") 3 (some zeroTable)).2.head[t]?
        = some { temp with ReferenceCount := temp.ReferenceCount + 1 } ∧
      (∀ j, j ≠ i →
        (OpenFile stateA (some "a") 3 (some zeroTable)).2.UFDTArr[j]? = stateA.UFDTArr[j]?) ∧
      (∀ j, j ≠ t →
        (OpenFile stateA (some "a") 3 (some zeroTable)).2.head[j]? = stateA.head[j]?) ∧
      (OpenFile stateA (some "a") 3 (some zeroTable)).2.SUPERBLOCKobj
        = stateA.SUPERBLOCKobj :=
  ⟨by decide,
   C8_open_success stateA (some "a") 3 (some zeroTable) (by decide) (by decide)⟩

/-! ## `CloseFileByName` -/

/-- The run of `CloseFileByName` on an occupied slot. -/
theorem CloseFileByName_run (s : VFS) (fd : Nat) (ft : FILETABLE) (ino : INODE)
    (hfd : s.UFDTArr[fd]? = some (some ft)) (hino : s.head[ft.ptrinode]? = some ino) :
    CloseFileByName s fd =
      some
        { s with
          UFDTArr :=
            s.UFDTArr.set fd
              (if ino.ReferenceCount - 1 = 0 then none
               else some { ft with readoffset := 0, writeoffset := 0 })
          head := s.head.set ft.ptrinode { ino with ReferenceCount := ino.ReferenceCount - 1 } } := by
  unfold CloseFileByName
  simp only [hfd, hino]
  split_ifs <;> rfl

/-- C9, amended: after `CloseFileByName d` on an open descriptor `d`, slot `d`
is empty exactly when the reference count of its inode, once decremented by the
call, is 0; when it is not 0 (for instance because another descriptor is
still open on the same inode) the slot keeps its entry, with both offsets
reset to 0. -/
theorem C9_close_slot (s : VFS) (d : Nat) (ft : FILETABLE) (ino : INODE)
    (hfd : s.UFDTArr[d]? = some (some ft)) (hino : s.head[ft.ptrinode]? = some ino) :
    ∃ s1 : VFS, CloseFileByName s d = some s1 ∧
      (s1.UFDTArr[d]? = some none ↔ ino.ReferenceCount - 1 = 0) ∧
      (ino.ReferenceCount - 1 ≠ 0 →
        s1.UFDTArr[d]? = some (some { ft with readoffset := 0, writeoffset := 0 })) := by
  refine ⟨_, CloseFileByName_run s d ft ino hfd hino, ?_, ?_⟩
  · rw [set_getElem?_self _ _ _ _ hfd]
    by_cases h : ino.ReferenceCount - 1 = 0
    · simp [h]
    · simp [h]
  · intro h
    rw [set_getElem?_self _ _ _ _ hfd, if_neg h]

/-- C9, amended, at descriptor 0 of `stateTwo`. -/
theorem C9_close_slot_witness :
    stateTwo.UFDTArr[0]? = some (some entryA) ∧
    ∃ s1 : VFS, CloseFileByName stateTwo 0 = some s1 ∧
      (s1.UFDTArr[0]? = some none ↔ inodeTwo.ReferenceCount - 1 = 0) ∧
      (inodeTwo.ReferenceCount - 1 ≠ 0 →
        s1.UFDTArr[0]? = some (some { entryA with readoffset := 0, writeoffset := 0 })) :=
  ⟨by decide!, C9_close_slot stateTwo 0 entryA inodeTwo (by decide!) (by decide!)⟩

/-- C9 as stated fails: in `stateTwo` descriptors 0 and 1 are open on the same
inode, of reference count 2; after `CloseFileByName 0` slot 0 is still
occupied. -/
theorem C9_counterexample :
    stateTwo.UFDTArr[0]? = some (some entryA) ∧
    stateTwo.UFDTArr[1]? = some (some entryTwo) ∧
    stateTwo.head[0]? = some inodeTwo ∧
    (CloseFileByName stateTwo 0).map (fun s1 => s1.UFDTArr[0]?)
      = some (some (some entryA)) ∧
    (CloseFileByName stateTwo 0).map (fun s1 => s1.UFDTArr[0]?) ≠ some (some none) := by
  refine ⟨?_, ?_, ?_, ?_, ?_⟩ <;> decide!

/-- What `ReadFile` returns and hands back depends on the state only through
the entry of the descriptor and four fields of its inode. -/
theorem ReadFile_result_congr (s s1 : VFS) (fd : Nat) (ft : FILETABLE) (ino ino1 : INODE)
    (isize : Int)
    (hfd : s.UFDTArr[fd]? = some (some ft)) (hfd1 : s1.UFDTArr[fd]? = some (some ft))
    (hino : s.head[ft.ptrinode]? = some ino) (hino1 : s1.head[ft.ptrinode]? = some ino1)
    (hP : ino1.Permission = ino.Permission) (hA : ino1.FileActualSize = ino.FileActualSize)
    (hT : ino1.FileType = ino.FileType) (hB : ino1.Buffer = ino.Buffer) :
    (ReadFile s1 fd isize).map (fun r => (r.1, r.2.1))
      = (ReadFile s fd isize).map (fun r => (r.1, r.2.1)) := by
  unfold ReadFile
  simp only [hfd, hfd1, hino, hino1, hP, hA, hT, hB]
  split_ifs <;> first
    | rfl
    | (cases ino.Buffer with
       | none => rfl
       | some buf =>
         simp only
         generalize strncpy _ _ = o
         cases o <;> rfl)

/-- C10: when two distinct descriptors `d1`, `d2` are open on the same inode
and its reference count is above 1, `CloseFileByName d1` leaves the buffer, the
actual size, the type, the link count, the name and the permission of the inode
unchanged and leaves the entry of `d2` unchanged, and every `ReadFile` through
`d2` returns the same count and the same bytes after the close as before it. -/
theorem C10_close_keeps_other (s : VFS) (d1 d2 : Nat) (ft1 ft2 : FILETABLE) (ino : INODE)
    (hne : d1 ≠ d2)
    (h1 : s.UFDTArr[d1]? = some (some ft1)) (h2 : s.UFDTArr[d2]? = some (some ft2))
    (hsame : ft1.ptrinode = ft2.ptrinode)
    (hino : s.head[ft1.ptrinode]? = some ino)
    (_hrc : 1 < ino.ReferenceCount) :
    ∃ (s1 : VFS) (ino1 : INODE),
      CloseFileByName s d1 = some s1 ∧ s1.head[ft1.ptrinode]? = some ino1 ∧
      ino1.Buffer = ino.Buffer ∧ ino1.FileActualSize = ino.FileActualSize ∧
      ino1.FileType = ino.FileType ∧ ino1.LinkCount = ino.LinkCount ∧
      ino1.FileName = ino.FileName ∧ ino1.Permission = ino.Permission ∧
      s1.UFDTArr[d2]? = some (some ft2) ∧
      ∀ isize : Int,
        (ReadFile s1 d2 isize).map (fun r => (r.1, r.2.1))
          = (ReadFile s d2 isize).map (fun r => (r.1, r.2.1)) := by
  have hfd2 : (s.UFDTArr.set d1
      (if ino.ReferenceCount - 1 = 0 then none
       else some { ft1 with readoffset := 0, writeoffset := 0 }))[d2]? = some (some ft2) := by
    rw [set_getElem?_other _ _ _ _ hne]
    exact h2
  have hino1 : (s.head.set ft1.ptrinode
      { ino with ReferenceCount := ino.ReferenceCount - 1 })[ft1.ptrinode]?
      = some { ino with ReferenceCount := ino.ReferenceCount - 1 } :=
    set_getElem?_self _ _ _ _ hino
  refine ⟨_, _, CloseFileByName_run s d1 ft1 ino h1 hino, hino1, rfl, rfl, rfl, rfl, rfl, rfl,
    hfd2, ?_⟩
  intro isize
  have hino2 : s.head[ft2.ptrinode]? = some ino := by
    rw [← hsame]
    exact hino
  have hino3 : (s.head.set ft1.ptrinode
      { ino with ReferenceCount := ino.ReferenceCount - 1 })[ft2.ptrinode]?
      = some { ino with ReferenceCount := ino.ReferenceCount - 1 } := by
    rw [← hsame]
    exact hino1
  exact ReadFile_result_congr s _ d2 ft2 ino
    { ino with ReferenceCount := ino.ReferenceCount - 1 } isize h2 hfd2 hino2 hino3
    rfl rfl rfl rfl

/-- C10 at descriptors 0 and 1 of `stateTwo`. -/
theorem C10_close_keeps_other_witness :
    (1 : Int) < inodeTwo.ReferenceCount ∧
    ∃ (s1 : VFS) (ino1 : INODE),
      CloseFileByName stateTwo 0 = some s1 ∧ s1.head[entryA.ptrinode]? = some ino1 ∧
      ino1.Buffer = inodeTwo.Buffer ∧ ino1.FileActualSize = inodeTwo.FileActualSize ∧
      ino1.FileType = inodeTwo.FileType ∧ ino1.LinkCount = inodeTwo.LinkCount ∧
      ino1.FileName = inodeTwo.FileName ∧ ino1.Permission = inodeTwo.Permission ∧
      s1.UFDTArr[1]? = some (some entryTwo) ∧
      ∀ isize : Int,
        (ReadFile s1 1 isize).map (fun r => (r.1, r.2.1))
          = (ReadFile stateTwo 1 isize).map (fun r => (r.1, r.2.1)) :=
  ⟨by decide,
   C10_close_keeps_other stateTwo 0 1 entryA entryTwo inodeTwo (by decide) (by decide!)
     (by decide!) rfl (by decide!) (by decide)⟩

/-! ## `GetFDFromName`, `rm_File` and `truncate_File` -/

/-- The scan of `GetFDFromName` stops at the first occupied slot whose inode
carries the name. -/
theorem GetFDFromName_loop_found (head : List INODE) (name : String)
    (l : List (Option FILETABLE)) (i d : Nat) (ft : FILETABLE) (ino : INODE)
    (hd : l[d]? = some (some ft)) (hino : head[ft.ptrinode]? = some ino)
    (hname : ino.FileName = name)
    (hbefore : ∀ (j : Nat) (ft1 : FILETABLE), j < d → l[j]? = some (some ft1) →
      ∃ ino1, head[ft1.ptrinode]? = some ino1 ∧ ino1.FileName ≠ name) :
    GetFDFromName.loop head name l i = some ((i + d : Nat) : Int) := by
  induction l generalizing i d with
  | nil => simp at hd
  | cons e rest ih =>
    cases d with
    | zero =>
      have he : e = some ft := by simpa using hd
      subst he
      simp [GetFDFromName.loop, hino, hname]
    | succ d =>
      have hd2 : rest[d]? = some (some ft) := by simpa using hd
      have hb2 : ∀ (j : Nat) (ft1 : FILETABLE), j < d → rest[j]? = some (some ft1) →
          ∃ ino1, head[ft1.ptrinode]? = some ino1 ∧ ino1.FileName ≠ name := by
        intro j ft1 hj hjs
        exact hbefore (j + 1) ft1 (by omega) (by simpa using hjs)
      have hrec := ih (i + 1) d hd2 hb2
      have harith : i + 1 + d = i + (d + 1) := by omega
      cases e with
      | none =>
        simp only [GetFDFromName.loop]
        rw [hrec, harith]
      | some ft0 =>
        obtain ⟨ino0, hino0, hne0⟩ := hbefore 0 ft0 (by omega) (by simp)
        simp only [GetFDFromName.loop, hino0]
        rw [if_neg (by simpa using hne0), hrec, harith]

/-- The scan of `GetFDFromName` returns `-1` when no occupied slot has an inode
that carries the name. -/
theorem GetFDFromName_loop_none (head : List INODE) (name : String)
    (l : List (Option FILETABLE)) (i : Nat)
    (h : ∀ (j : Nat) (ft1 : FILETABLE), l[j]? = some (some ft1) →
      ∃ ino1, head[ft1.ptrinode]? = some ino1 ∧ ino1.FileName ≠ name) :
    GetFDFromName.loop head name l i = some (-1) := by
  induction l generalizing i with
  | nil => simp [GetFDFromName.loop]
  | cons e rest ih =>
    have h2 : ∀ (j : Nat) (ft1 : FILETABLE), rest[j]? = some (some ft1) →
        ∃ ino1, head[ft1.ptrinode]? = some ino1 ∧ ino1.FileName ≠ name := by
      intro j ft1 hjs
      exact h (j + 1) ft1 (by simpa using hjs)
    cases e with
    | none =>
      simp only [GetFDFromName.loop]
      exact ih (i + 1) h2
    | some ft0 =>
      obtain ⟨ino0, hino0, hne0⟩ := h 0 ft0 (by simp)
      simp only [GetFDFromName.loop, hino0]
      rw [if_neg (by simpa using hne0)]
      exact ih (i + 1) h2

/-- The value of `GetFDFromName` when `d` is the lowest-numbered descriptor whose
inode carries the name. -/
theorem GetFDFromName_found (s : VFS) (name : String) (d : Nat) (ft : FILETABLE) (ino : INODE)
    (hd : s.UFDTArr[d]? = some (some ft)) (hino : s.head[ft.ptrinode]? = some ino)
    (hname : ino.FileName = name)
    (hbefore : ∀ (j : Nat) (ft1 : FILETABLE), j < d → s.UFDTArr[j]? = some (some ft1) →
      ∃ ino1, s.head[ft1.ptrinode]? = some ino1 ∧ ino1.FileName ≠ name) :
    GetFDFromName s name = some (d : Int) := by
  have h := GetFDFromName_loop_found s.head name s.UFDTArr 0 d ft ino hd hino hname hbefore
  simpa [GetFDFromName] using h

/-- C11: `rm_File name` returns -1 and leaves the state unchanged when no
occupied descriptor slot has an inode that carries the name (whatever the inode
list holds); otherwise, with `d` the lowest-numbered descriptor whose inode
carries the name, it returns 0, lowers the link count of that inode by exactly
1, sets its type to 0 (unused) exactly when the new link count is 0, empties
slot `d`, raises the free count of the superblock by exactly 1, and leaves every
other slot, every other inode and the other fields of the inode (its name and
inode number among them) unchanged. -/
theorem C11_unlink (s : VFS) (name : String) :
    ((∀ (j : Nat) (ft1 : FILETABLE), s.UFDTArr[j]? = some (some ft1) →
        ∃ ino1, s.head[ft1.ptrinode]? = some ino1 ∧ ino1.FileName ≠ name) →
      rm_File s name = some (-1, s)) ∧
    (∀ (d : Nat) (ft : FILETABLE) (ino : INODE),
      s.UFDTArr[d]? = some (some ft) → s.head[ft.ptrinode]? = some ino →
      ino.FileName = name →
      (∀ (j : Nat) (ft1 : FILETABLE), j < d → s.UFDTArr[j]? = some (some ft1) →
        ∃ ino1, s.head[ft1.ptrinode]? = some ino1 ∧ ino1.FileName ≠ name) →
      ∃ s1 : VFS, rm_File s name = some (0, s1) ∧
        s1.head[ft.ptrinode]?
          = some { ino with
                   LinkCount := ino.LinkCount - 1
                   FileType := if ino.LinkCount - 1 = 0 then 0 else ino.FileType } ∧
        s1.UFDTArr[d]? = some none ∧
        s1.SUPERBLOCKobj.FreeInodes = s.SUPERBLOCKobj.FreeInodes + 1 ∧
        s1.SUPERBLOCKobj.TotalInodes = s.SUPERBLOCKobj.TotalInodes ∧
        (∀ j : Nat, j ≠ d → s1.UFDTArr[j]? = s.UFDTArr[j]?) ∧
        (∀ j : Nat, j ≠ ft.ptrinode → s1.head[j]? = s.head[j]?)) := by
  constructor
  · intro h
    have hg : GetFDFromName s name = some (-1) := GetFDFromName_loop_none _ _ _ 0 h
    simp [rm_File, hg]
  · intro d ft ino hd hino hname hbefore
    have hg := GetFDFromName_found s name d ft ino hd hino hname hbefore
    have hne : ((d : Int) = -1) = False := by
      apply eq_false
      omega
    refine ⟨{ UFDTArr := s.UFDTArr.set d none
              SUPERBLOCKobj :=
                { s.SUPERBLOCKobj with FreeInodes := s.SUPERBLOCKobj.FreeInodes + 1 }
              head :=
                s.head.set ft.ptrinode
                  (if ino.LinkCount - 1 = 0 then
                    { ino with LinkCount := ino.LinkCount - 1, FileType := 0 }
                   else { ino with LinkCount := ino.LinkCount - 1 }) },
      ?_, ?_, set_getElem?_self _ _ _ _ hd, rfl, rfl, ?_, ?_⟩
    · unfold rm_File
      simp only [hg, hne, if_false, Int.toNat_ofNat, hd, hino]
    · rw [set_getElem?_self _ _ _ _ hino]
      by_cases h0 : ino.LinkCount - 1 = 0
      · simp [h0]
      · simp [h0]
    · intro j hj
      exact set_getElem?_other _ _ _ _ (Ne.symm hj)
    · intro j hj
      exact set_getElem?_other _ _ _ _ (Ne.symm hj)

/-- C11 at `rm a` right after start-up (nothing is open) and at `rm a` on
`stateA` (descriptor 0 is open on `a`). -/
theorem C11_unlink_witness :
    rm_File state0 "a" = some (-1, state0) ∧
    ∃ s1 : VFS, rm_File stateA "a" = some (0, s1) ∧
      s1.head[entryA.ptrinode]?
        = some { inodeA with
                 LinkCount := inodeA.LinkCount - 1
                 FileType := if inodeA.LinkCount - 1 = 0 then 0 else inodeA.FileType } ∧
      s1.UFDTArr[0]? = some none ∧
      s1.SUPERBLOCKobj.FreeInodes = stateA.SUPERBLOCKobj.FreeInodes + 1 ∧
      s1.SUPERBLOCKobj.TotalInodes = stateA.SUPERBLOCKobj.TotalInodes ∧
      (∀ j : Nat, j ≠ 0 → s1.UFDTArr[j]? = stateA.UFDTArr[j]?) ∧
      (∀ j : Nat, j ≠ entryA.ptrinode → s1.head[j]? = stateA.head[j]?) :=
  ⟨(C11_unlink state0 "a").1 (fun j ft1 h => by
      simp [state0, start, List.getElem?_replicate] at h),
   (C11_unlink stateA "a").2 0 entryA inodeA (by decide!) (by decide!) (by decide)
     (fun j _ hj _ => absurd hj (Nat.not_lt_zero j))⟩

/-- The bytes `memset` leaves in a buffer of `MAXFILESIZE` bytes. -/
theorem store_zeros (buf : List Nat) (h : buf.length = 2048) :
    store buf 0 (List.replicate MAXFILESIZE.toNat 0) = some (List.replicate 2048 0) := by
  have h1 : MAXFILESIZE.toNat = 2048 := by decide
  have hl : (List.replicate 2048 (0 : Nat)).length = 2048 := List.length_replicate 2048 0
  rw [h1]
  unfold store
  rw [if_pos (by omega), List.drop_eq_nil_of_le (by omega), List.take_zero, List.nil_append,
    List.append_nil]

/-- C16: `truncate_File name` returns -1 and leaves the state unchanged when no
occupied descriptor slot has an inode that carries the name; otherwise, with
`d` the lowest-numbered descriptor whose inode carries the name (the 2048-byte
buffer of that inode being allocated), it returns 0, sets all 2048 bytes of the
buffer to zero, sets the read offset and the write offset of `d` and the actual
size of the inode to 0, and leaves the other fields of the inode (declared
size, link count, reference count, permission, name, type), every other
descriptor entry, every other inode and the superblock unchanged. -/
theorem C16_truncate (s : VFS) (name : String) :
    ((∀ (j : Nat) (ft1 : FILETABLE), s.UFDTArr[j]? = some (some ft1) →
        ∃ ino1, s.head[ft1.ptrinode]? = some ino1 ∧ ino1.FileName ≠ name) →
      truncate_File s name = some (-1, s)) ∧
    (∀ (d : Nat) (ft : FILETABLE) (ino : INODE) (buf : List Nat),
      s.UFDTArr[d]? = some (some ft) → s.head[ft.ptrinode]? = some ino →
      ino.FileName = name →
      (∀ (j : Nat) (ft1 : FILETABLE), j < d → s.UFDTArr[j]? = some (some ft1) →
        ∃ ino1, s.head[ft1.ptrinode]? = some ino1 ∧ ino1.FileName ≠ name) →
      ino.Buffer = some buf → buf.length = 2048 →
      ∃ s1 : VFS, truncate_File s name = some (0, s1) ∧
        s1.head[ft.ptrinode]?
          = some { ino with Buffer := some (List.replicate 2048 0), FileActualSize := 0 } ∧
        s1.UFDTArr[d]? = some (some { ft with readoffset := 0, writeoffset := 0 }) ∧
        (∀ j : Nat, j ≠ d → s1.UFDTArr[j]? = s.UFDTArr[j]?) ∧
        (∀ j : Nat, j ≠ ft.ptrinode → s1.head[j]? = s.head[j]?) ∧
        s1.SUPERBLOCKobj = s.SUPERBLOCKobj) := by
  constructor
  · intro h
    have hg : GetFDFromName s name = some (-1) := GetFDFromName_loop_none _ _ _ 0 h
    simp [truncate_File, hg]
  · intro d ft ino buf hd hino hname hbefore hbuf hlen
    have hg := GetFDFromName_found s name d ft ino hd hino hname hbefore
    have hne : ((d : Int) = -1) = False := by
      apply eq_false
      omega
    refine ⟨{ s with
              UFDTArr := s.UFDTArr.set d (some { ft with readoffset := 0, writeoffset := 0 })
              head :=
                s.head.set ft.ptrinode
                  { ino with Buffer := some (List.replicate 2048 0), FileActualSize := 0 } },
      ?_, set_getElem?_self _ _ _ _ hino, set_getElem?_self _ _ _ _ hd, ?_, ?_, rfl⟩
    · unfold truncate_File
      simp only [hg, hne, if_false, Int.toNat_ofNat, hd, hino, hbuf, store_zeros buf hlen]
    · intro j hj
      exact set_getElem?_other _ _ _ _ (Ne.symm hj)
    · intro j hj
      exact set_getElem?_other _ _ _ _ (Ne.symm hj)

/-- C16 at `truncate a` right after start-up (nothing is open) and at
`truncate a` on `stateHello`. -/
theorem C16_truncate_witness :
    truncate_File state0 "a" = some (-1, state0) ∧
    ∃ s1 : VFS, truncate_File stateHello "a" = some (0, s1) ∧
      s1.head[entryHello.ptrinode]?
        = some { inodeHello with
                 Buffer := some (List.replicate 2048 0), FileActualSize := 0 } ∧
      s1.UFDTArr[0]? = some (some { entryHello with readoffset := 0, writeoffset := 0 }) ∧
      (∀ j : Nat, j ≠ 0 → s1.UFDTArr[j]? = stateHello.UFDTArr[j]?) ∧
      (∀ j : Nat, j ≠ entryHello.ptrinode → s1.head[j]? = stateHello.head[j]?) ∧
      s1.SUPERBLOCKobj = stateHello.SUPERBLOCKobj :=
  ⟨(C16_truncate state0 "a").1 (fun j ft1 h => by
      simp [state0, start, List.getElem?_replicate] at h),
   (C16_truncate stateHello "a").2 0 entryHello inodeHello bufferHello (by decide!) (by decide!)
     (by decide) (fun j _ hj _ => absurd hj (Nat.not_lt_zero j)) rfl (by decide!)⟩

/-- C12, the code at the failing input: `create a 3` right after start-up
returns descriptor 0 (the state is `stateA`); `rm a` then returns 0 and leaves
inode 0 with type 0 and link count 0 but still named `a`; the second
`create a 3` returns -3 (file already exists) where the claim has it succeed. -/
theorem C12_create_after_unlink :
    CreateFile state0 (some "a") 3 (some zeroTable) (some zeroBuffer) = some (0, stateA) ∧
    (rm_File stateA "a").map (fun r => r.1) = some 0 ∧
    (rm_File stateA "a").map (fun r => r.2) = some stateGone ∧
    stateGone.head[0]?.map (fun ino => (ino.FileName, ino.FileType, ino.LinkCount))
      = some ("a", 0, 0) ∧
    (CreateFile stateGone (some "a") 3 (some zeroTable) (some zeroBuffer)).map (fun r => r.1)
      = some (-3) := by
  refine ⟨?_, ?_, ?_, ?_, ?_⟩ <;> decide!

/-! ## `LseekFile` -/

/-- C13, the code at the failing input: in `stateHello` descriptor 0 is open
with mode 3 at read offset 0 on a file of actual size 5. `LseekFile 0 3 END`
(candidate 8, above the actual size) returns 0 and sets the read offset to 8,
and `LseekFile 0 (-3) END` (candidate 2, inside the file) returns -1. -/
theorem C13_seek_end_of_read_descriptor :
    stateHello.UFDTArr[0]? = some (some entryHello) ∧
    stateHello.head[entryHello.ptrinode]? = some inodeHello ∧
    entryHello.mode = READ + WRITE ∧ entryHello.readoffset = 0 ∧
    inodeHello.FileActualSize = 5 ∧
    (LseekFile stateHello 0 3 END).map
        (fun r => (r.1, r.2.UFDTArr[0]?.map (fun e => e.map (fun ft => ft.readoffset))))
      = some (0, some (some 8)) ∧
    (LseekFile stateHello 0 (-3) END).map (fun r => r.1) = some (-1) := by
  refine ⟨?_, ?_, ?_, ?_, ?_, ?_, ?_⟩ <;> decide!

/-- C14, the code at the failing input: in `stateW` descriptor 0 is open with
mode 2 at write offset 5 on a file of actual size 5. `LseekFile 0 3 END`
(candidate 8) returns 0 and sets the write offset to 8 but leaves the actual
size at 5; and once the write offset is back at 0, `LseekFile 0 (-3) END`
(candidate 2) returns -1. -/
theorem C14_seek_end_of_write_descriptor :
    stateW.UFDTArr[0]?.map (fun e => e.map (fun ft => (ft.mode, ft.writeoffset, ft.ptrinode)))
      = some (some (2, 5, 0)) ∧
    stateW.head[0]?.map (fun ino => ino.FileActualSize) = some 5 ∧
    (LseekFile stateW 0 3 END).map
        (fun r => (r.1,
          r.2.UFDTArr[0]?.map (fun e => e.map (fun ft => ft.writeoffset)),
          r.2.head[0]?.map (fun ino => ino.FileActualSize)))
      = some (0, some (some 8), some 5) ∧
    ((LseekFile stateW 0 0 START).bind (fun r0 =>
        (LseekFile r0.2 0 (-3) END).map (fun r => (r0.1, r.1))))
      = some (0, -1) := by
  refine ⟨?_, ?_, ?_, ?_⟩ <;> decide!

/-- Assigning a position the value it already holds changes nothing. -/
theorem set_same {α : Type} (l : List α) (i : Nat) (a : α) (h : l[i]? = some a) :
    l.set i a = l := by
  apply List.ext_getElem?
  intro j
  by_cases hj : i = j
  · subst hj
    rw [set_getElem?_self l i a a h, h]
  · rw [set_getElem?_other l i j a hj]

/-- Every run of `LseekFile` on a descriptor open with mode 1 or 3 ends in the
state it started from, but for the read offset of that descriptor. -/
theorem LseekFile_read_shape (s : VFS) (d : Nat) (ft : FILETABLE) (ino : INODE)
    (size from_ : Int)
    (hfd : s.UFDTArr[d]? = some (some ft))
    (hmode : ft.mode = READ ∨ ft.mode = READ + WRITE)
    (hino : s.head[ft.ptrinode]? = some ino) :
    ∃ (r x : Int), LseekFile s (d : Int) size from_ =
      some (r, { s with UFDTArr := s.UFDTArr.set d (some { ft with readoffset := x }) }) := by
  have hsame : ({ s with UFDTArr := s.UFDTArr.set d (some { ft with readoffset := ft.readoffset }) } : VFS)
      = s := by
    have := set_same s.UFDTArr d (some ft) hfd
    cases s
    simp_all
  unfold LseekFile
  by_cases h1 : ((d : Int) < 0 ∨ from_ > 2)
  · rw [if_pos h1]
    refine ⟨-1, ft.readoffset, ?_⟩
    rw [hsame]
  · rw [if_neg h1]
    simp only [Int.toNat_ofNat, hfd, hino]
    rw [if_pos hmode]
    split_ifs
    all_goals first
      | (refine ⟨-1, ft.readoffset, ?_⟩; rw [hsame]; done)
      | (refine ⟨0, ft.readoffset, ?_⟩; rw [hsame]; done)
      | exact ⟨0, _, rfl⟩

/-- C15: for a descriptor `d` open with mode 1 or 3, whatever the displacement
and the anchor, `LseekFile` leaves the write offset of `d`, its mode and its
inode reference, every other descriptor, every inode (actual size and buffer
included) and the superblock unchanged: the read offset of `d` is the only
field it can change. -/
theorem C15_seek_read_frame (s : VFS) (d : Nat) (ft : FILETABLE) (ino : INODE)
    (size from_ : Int)
    (hfd : s.UFDTArr[d]? = some (some ft))
    (hmode : ft.mode = READ ∨ ft.mode = READ + WRITE)
    (hino : s.head[ft.ptrinode]? = some ino) :
    ∃ (r : Int) (s1 : VFS) (ft1 : FILETABLE),
      LseekFile s (d : Int) size from_ = some (r, s1) ∧
      s1.UFDTArr[d]? = some (some ft1) ∧
      ft1.writeoffset = ft.writeoffset ∧ ft1.mode = ft.mode ∧ ft1.count = ft.count ∧
      ft1.ptrinode = ft.ptrinode ∧
      (∀ j : Nat, j ≠ d → s1.UFDTArr[j]? = s.UFDTArr[j]?) ∧
      s1.head = s.head ∧ s1.SUPERBLOCKobj = s.SUPERBLOCKobj := by
  obtain ⟨r, x, hrun⟩ := LseekFile_read_shape s d ft ino size from_ hfd hmode hino
  refine ⟨r, _, _, hrun, set_getElem?_self _ _ _ _ hfd, rfl, rfl, rfl, rfl, ?_, rfl, rfl⟩
  intro j hj
  exact set_getElem?_other _ _ _ _ (Ne.symm hj)

/-- C15 at descriptor 0 of `stateHello`, displacement 3 from `START`. -/
theorem C15_seek_read_frame_witness :
    entryHello.mode = READ + WRITE ∧
    ∃ (r : Int) (s1 : VFS) (ft1 : FILETABLE),
      LseekFile stateHello ((0 : Nat) : Int) 3 START = some (r, s1) ∧
      s1.UFDTArr[0]? = some (some ft1) ∧
      ft1.writeoffset = entryHello.writeoffset ∧ ft1.mode = entryHello.mode ∧
      ft1.count = entryHello.count ∧ ft1.ptrinode = entryHello.ptrinode ∧
      (∀ j : Nat, j ≠ 0 → s1.UFDTArr[j]? = stateHello.UFDTArr[j]?) ∧
      s1.head = stateHello.head ∧ s1.SUPERBLOCKobj = stateHello.SUPERBLOCKobj :=
  ⟨by decide,
   C15_seek_read_frame stateHello 0 entryHello inodeHello 3 START (by decide!) (by decide)
     (by decide!)⟩

/-! ## The checks of `CreateFile` -/

/-- C17, amended: `CreateFile` returns -1 (invalid argument) and leaves the whole
state, the free inode count included, unchanged whenever the name is `NULL` or
the permission is 0 or above 3. -/
theorem C17_create_invalid (s : VFS) (name : Option String) (permission : Int)
    (ftBlock : Option FILETABLE) (bufBlock : Option (List Nat))
    (h : name = none ∨ permission = 0 ∨ 3 < permission) :
    CreateFile s name permission ftBlock bufBlock = some (-1, s) := by
  unfold CreateFile
  cases name with
  | none => rfl
  | some nm =>
    have hp : permission = 0 ∨ permission > 3 := by
      rcases h with h | h | h
      · cases h
      · exact Or.inl h
      · exact Or.inr h
    simp only [if_pos hp]

/-- C17, amended, at `create a 4` right after start-up. -/
theorem C17_create_invalid_witness :
    CreateFile state0 (some "a") 4 (some zeroTable) (some zeroBuffer) = some (-1, state0) :=
  C17_create_invalid state0 (some "a") 4 (some zeroTable) (some zeroBuffer)
    (Or.inr (Or.inr (by decide)))

/-- C17 as stated fails: in `stateQ` (start-up, the fresh inode blocks holding
the name `?`) `create` with the empty name and permission 3 is not refused: it
returns descriptor 0. -/
theorem C17_counterexample :
    (CreateFile stateQ (some "") 3 (some zeroTable) (some zeroBuffer)).map (fun r => r.1)
      = some 0 ∧
    (CreateFile stateQ (some "") 3 (some zeroTable) (some zeroBuffer)).map (fun r => r.1)
      ≠ some (-1) ∧
    (CreateFile stateQ (some "") 3 (some zeroTable) (some zeroBuffer)).map (fun r => r.2)
      ≠ some stateQ := by
  refine ⟨?_, ?_, ?_⟩ <;> decide!

/-- C18: when the free inode count is above 0, the name is not `NULL`, the
permission is 1, 2 or 3 and some inode of the list already carries the name,
`CreateFile` returns -3 (file already exists) and the state it leaves is the
state before the call with the free inode count lowered by exactly 1. -/
theorem C18_create_existing (s : VFS) (nm : String) (permission : Int)
    (ftBlock : Option FILETABLE) (bufBlock : Option (List Nat))
    (hfree : 0 < s.SUPERBLOCKobj.FreeInodes)
    (hp : permission = 1 ∨ permission = 2 ∨ permission = 3)
    (hex : ∃ (i : Nat) (ino : INODE), s.head[i]? = some ino ∧ ino.FileName = nm) :
    CreateFile s (some nm) permission ftBlock bufBlock =
      some (-3, { s with SUPERBLOCKobj :=
                    { s.SUPERBLOCKobj with FreeInodes := s.SUPERBLOCKobj.FreeInodes - 1 } }) := by
  obtain ⟨i, ino, hi, hname⟩ := hex
  have hfound : (List.findIdx? (fun ino => ino.FileName == nm) s.head).isSome = true := by
    rw [List.findIdx?_isSome]
    simp only [List.any_eq_true]
    exact ⟨ino, List.getElem?_mem hi, by simp [hname]⟩
  unfold CreateFile
  simp only
  rw [if_neg (by omega), if_neg (by omega)]
  simp only [Get_Inode]
  rw [if_pos hfound]

/-- C18 at `create a 3` on `stateA`, where `a` exists. -/
theorem C18_create_existing_witness :
    (0 : Int) < stateA.SUPERBLOCKobj.FreeInodes ∧
    CreateFile stateA (some "a") 3 (some zeroTable) (some zeroBuffer) =
      some (-3, { stateA with SUPERBLOCKobj :=
                    { stateA.SUPERBLOCKobj with
                      FreeInodes := stateA.SUPERBLOCKobj.FreeInodes - 1 } }) :=
  ⟨by decide,
   C18_create_existing stateA "a" 3 (some zeroTable) (some zeroBuffer) (by decide) (by decide)
     ⟨0, inodeA, by decide!, by decide⟩⟩

/-! ## Fifty files -/

/-- A linear scan returns the first position that passes the test. -/
theorem findIdx?_of_first {α : Type} (l : List α) (p : α → Bool) (i : Nat)
    (hi : ∃ x, l[i]? = some x ∧ p x = true)
    (hlt : ∀ j, j < i → ∃ y, l[j]? = some y ∧ p y = false) :
    l.findIdx? p = some i := by
  obtain ⟨x, hx, hpx⟩ := hi
  rw [List.getElem?_eq_some] at hx
  obtain ⟨hil, hxe⟩ := hx
  rw [List.findIdx?_eq_some_iff_getElem]
  refine ⟨hil, by rw [hxe]; exact hpx, ?_⟩
  intro j hj
  obtain ⟨y, hy, hpy⟩ := hlt j hj
  rw [List.getElem?_eq_some] at hy
  obtain ⟨hjl, hye⟩ := hy
  rw [hye]
  simp [hpy]

/-- The inode list `CreateDILB` builds when every `malloc` succeeds. -/
theorem CreateDILB_loop_all (g : Nat → INODE) (fuel i : Nat) (acc : List INODE) :
    CreateDILB.loop (fun n => some (g n)) fuel i acc =
      acc ++ (List.range' i fuel).map (fun n =>
        ({ g n with
           LinkCount := 0, ReferenceCount := 0, FileType := 0, FileSize := 0,
           Buffer := none, InodeNumber := (n : Int) } : INODE)) := by
  induction fuel generalizing i acc with
  | zero => simp [CreateDILB.loop]
  | succ fuel ih =>
    simp only [CreateDILB.loop]
    rw [ih, List.range'_succ]
    simp

/-- The state right after start-up has nothing in use, and its inodes carry the
names the blocks came with. -/
theorem start_created (g : Nat → INODE) :
    CreatedUpTo (start (fun n => some (g n))) 0 ∧
    ∀ ino ∈ (start (fun n => some (g n))).head, ∃ n, ino.FileName = (g n).FileName := by
  have hhead : (start (fun n => some (g n))).head =
      (List.range' 1 50).map (fun n =>
        ({ g n with
           LinkCount := 0, ReferenceCount := 0, FileType := 0, FileSize := 0,
           Buffer := none, InodeNumber := (n : Int) } : INODE)) := by
    simp only [start, CreateDILB]
    rw [CreateDILB_loop_all]
    simp
  refine ⟨⟨?_, ?_, ?_, ?_, ?_⟩, ?_⟩
  · intro j hj
    omega
  · intro j _ hj
    simp only [start]
    rw [List.getElem?_replicate, if_pos hj]
  · intro j hj
    omega
  · intro j _ hj
    rw [hhead, List.getElem?_map, List.getElem?_range' 1 1 hj]
    exact ⟨_, rfl, rfl⟩
  · simp [start]
  · intro ino hino
    rw [hhead, List.mem_map] at hino
    obtain ⟨n, _, hn⟩ := hino
    exact ⟨n, by rw [← hn]⟩

/-- One `create` on tables with `k < 50` files, with a name that fits the
array: it returns `k`, the tables then hold `k + 1` files, and the names in the
inode list are the old ones and the new one. -/
theorem CreateFile_next (s : VFS) (k : Nat) (nm : String) (p : Int) (fb : FILETABLE)
    (bb : List Nat)
    (hinv : CreatedUpTo s k) (hk : k < 50)
    (hp : p = 1 ∨ p = 2 ∨ p = 3)
    (hfit : nm.utf8ByteSize < 50)
    (hfresh : ∀ ino ∈ s.head, ino.FileName ≠ nm) :
    ∃ (temp : INODE) (s1 : VFS), s.head[k]? = some temp ∧ s.UFDTArr[k]? = some none ∧
      CreateFile s (some nm) p (some fb) (some bb) = some ((k : Int), s1) ∧
      s1 =
        { UFDTArr :=
            s.UFDTArr.set k
              (some { count := 1, mode := p, readoffset := 0, writeoffset := 0,
                      ptrinode := k })
          SUPERBLOCKobj :=
            { s.SUPERBLOCKobj with FreeInodes := s.SUPERBLOCKobj.FreeInodes - 1 }
          head :=
            s.head.set k
              { temp with
                FileName := nm, FileType := REGULAR, ReferenceCount := 1, LinkCount := 1,
                FileSize := MAXFILESIZE, FileActualSize := 0, Permission := p,
                Buffer := some bb } } ∧
      CreatedUpTo s1 (k + 1) ∧
      ∀ ino ∈ s1.head, ino.FileName = nm ∨ ∃ old ∈ s.head, ino.FileName = old.FileName := by
  obtain ⟨ha, hb, hc, hd, he⟩ := hinv
  obtain ⟨temp, htemp, htype⟩ := hd k (le_refl k) hk
  have hslot : s.UFDTArr[k]? = some none := hb k (le_refl k) hk
  have hget : List.findIdx? (fun ino => ino.FileName == nm) s.head = none := by
    rw [List.findIdx?_eq_none_iff]
    intro x hx
    simpa using hfresh x hx
  have hino : List.findIdx? (fun ino => ino.FileType == 0) s.head = some k := by
    apply findIdx?_of_first
    · exact ⟨temp, htemp, by simp [htype]⟩
    · intro j hj
      obtain ⟨y, hy, hyt⟩ := hc j hj
      exact ⟨y, hy, by simpa using hyt⟩
  have hfd : List.findIdx? (fun e => e.isNone) s.UFDTArr = some k := by
    apply findIdx?_of_first
    · exact ⟨none, hslot, rfl⟩
    · intro j hj
      obtain ⟨e, hje⟩ := ha j hj
      exact ⟨some e, hje, rfl⟩
  have hres : CreateFile s (some nm) p (some fb) (some bb) =
      some ((k : Int),
        { UFDTArr :=
            s.UFDTArr.set k
              (some { count := 1, mode := p, readoffset := 0, writeoffset := 0, ptrinode := k })
          SUPERBLOCKobj :=
            { s.SUPERBLOCKobj with FreeInodes := s.SUPERBLOCKobj.FreeInodes - 1 }
          head :=
            s.head.set k
              { temp with
                FileName := nm, FileType := REGULAR, ReferenceCount := 1, LinkCount := 1,
                FileSize := MAXFILESIZE, FileActualSize := 0, Permission := p,
                Buffer := some bb } }) := by
    unfold CreateFile
    simp only
    rw [if_neg (by omega), if_neg (by omega)]
    simp only [Get_Inode, hget, hino, htemp, hfd]
    rw [if_neg (Nat.not_le.mpr hfit)]
    rfl
  refine ⟨temp, _, htemp, hslot, hres, rfl, ?_, ?_⟩
  · refine ⟨?_, ?_, ?_, ?_, ?_⟩
    · intro j hj
      by_cases hjk : j = k
      · subst hjk
        exact ⟨_, set_getElem?_self _ _ _ _ hslot⟩
      · obtain ⟨e, hje⟩ := ha j (by omega)
        exact ⟨e, by rw [set_getElem?_other _ _ _ _ (Ne.symm hjk)]; exact hje⟩
    · intro j hj1 hj2
      rw [set_getElem?_other _ _ _ _ (by omega)]
      exact hb j (by omega) hj2
    · intro j hj
      by_cases hjk : j = k
      · subst hjk
        exact ⟨_, set_getElem?_self _ _ _ _ htemp, by simp [REGULAR]⟩
      · obtain ⟨y, hy, hyt⟩ := hc j (by omega)
        exact ⟨y, by rw [set_getElem?_other _ _ _ _ (Ne.symm hjk)]; exact hy, hyt⟩
    · intro j hj1 hj2
      obtain ⟨y, hy, hyt⟩ := hd j (by omega) hj2
      exact ⟨y, by rw [set_getElem?_other _ _ _ _ (by omega)]; exact hy, hyt⟩
    · simp only
      omega
  · intro ino hmem
    rcases List.mem_or_eq_of_mem_set hmem with h | h
    · exact Or.inr ⟨ino, h, rfl⟩
    · exact Or.inl (by rw [h])

/-- The run of `ReadFile` on a descriptor whose read offset is the actual size
of its file. -/
theorem ReadFile_eof (s : VFS) (fd : Nat) (ft : FILETABLE) (ino : INODE) (isize : Int)
    (hfd : s.UFDTArr[fd]? = some (some ft))
    (hmode : ft.mode = READ ∨ ft.mode = READ + WRITE)
    (hino : s.head[ft.ptrinode]? = some ino)
    (hperm : ino.Permission = READ ∨ ino.Permission = READ + WRITE)
    (heof : ft.readoffset = ino.FileActualSize) :
    ReadFile s fd isize = some (-3, [], s) := by
  have hm : ¬ (ft.mode ≠ READ ∧ ft.mode ≠ READ + WRITE) := by
    rcases hmode with h | h <;> simp [h]
  have hp : ¬ (ino.Permission ≠ READ ∧ ino.Permission ≠ READ + WRITE) := by
    rcases hperm with h | h <;> simp [h]
  unfold ReadFile
  simp only [hfd, hino]
  rw [if_neg hm, if_neg hp, if_pos heof]

/-- The `hello` scenario on any tables with no file in use and no inode named
`a.txt`. -/
theorem hello_scenario_from (s0 : VFS) (fb : FILETABLE) (bb : List Nat)
    (hinv0 : CreatedUpTo s0 0)
    (hfresh : ∀ ino ∈ s0.head, ino.FileName ≠ "a.txt")
    (hbb : bb.length = 2048) :
    ∃ (s1 s2 s3 s4 : VFS) (ft : FILETABLE) (ino : INODE),
      CreateFile s0 (some "a.txt") 3 (some fb) (some bb) = some (0, s1) ∧
      WriteFile s1 0 hello 5 = some (5, s2) ∧
      s2.UFDTArr[0]? = some (some ft) ∧ s2.head[ft.ptrinode]? = some ino ∧
      ino.FileActualSize = 5 ∧
      LseekFile s2 0 0 START = some (0, s3) ∧
      ReadFile s3 0 10 = some (5, hello, s4) ∧
      ReadFile s4 0 10 = some (-3, [], s4) := by
  obtain ⟨temp, s1, htemp, hslot, hres, hs1, _, _⟩ :=
    CreateFile_next s0 0 "a.txt" 3 fb bb hinv0 (by omega)
      (Or.inr (Or.inr rfl)) (by decide) hfresh
  have h1fd : s1.UFDTArr[0]?
      = some (some { count := 1, mode := 3, readoffset := 0, writeoffset := 0, ptrinode := 0 }) := by
    rw [hs1]
    exact set_getElem?_self _ _ _ _ hslot
  have h1ino : s1.head[0]?
      = some { temp with
               FileName := "a.txt", FileType := REGULAR, ReferenceCount := 1, LinkCount := 1,
               FileSize := MAXFILESIZE, FileActualSize := 0, Permission := 3,
               Buffer := some bb } := by
    rw [hs1]
    exact set_getElem?_self _ _ _ _ htemp
  have hz : ∀ b ∈ hello, b ≠ 0 := by decide
  have hhl : hello.length = 5 := rfl
  obtain ⟨buf1, hstore, hbuf1⟩ :
      ∃ b, store bb 0 hello = some b ∧ b = hello ++ bb.drop 5 := by
    refine ⟨_, ?_, rfl⟩
    unfold store
    rw [if_pos (by omega)]
    simp [hhl]
  have hcopy : strncpy hello 5 = some hello := by decide
  obtain ⟨s2, hw, h2fd, h2ino⟩ :=
    WriteFile_step s1 0
      { count := 1, mode := 3, readoffset := 0, writeoffset := 0, ptrinode := 0 }
      { temp with
        FileName := "a.txt", FileType := REGULAR, ReferenceCount := 1, LinkCount := 1,
        FileSize := MAXFILESIZE, FileActualSize := 0, Permission := 3, Buffer := some bb }
      bb hello hello buf1 5 5
      h1fd (Or.inr rfl) h1ino (Or.inr rfl)
      (by simp [MAXFILESIZE]) rfl rfl
      (by decide) (by simp) (by omega)
      hcopy hstore
  obtain ⟨s3, hl, h3fd, h3head⟩ :=
    LseekFile_read_start s2 0 _ _ 0 h2fd (Or.inr rfl) h2ino (le_refl 0)
      (by simp [addInt_zero])
  have h3ino := h2ino
  rw [← h3head] at h3ino
  have hsrc : strncpy (buf1.drop (0 : Int).toNat) (5 : Int).toNat = some hello := by
    have h5 : (5 : Int).toNat = hello.length := rfl
    rw [h5, hbuf1]
    exact strncpy_prefix hello _ hz
  have hrd := ReadFile_run s3 0 _ _ buf1 hello 10 5
    h3fd (Or.inr rfl) h3ino (Or.inr rfl) (by simp [addInt_zero]) rfl rfl
    (by simp [addInt_zero]) (by simp) (by omega) hsrc
  have h4fd := set_getElem?_self s3.UFDTArr 0
    (some ({ ({ ({ count := 1, mode := 3, readoffset := 0, writeoffset := 0, ptrinode := 0 }
                  : FILETABLE) with writeoffset := addInt 0 5 } : FILETABLE) with
              readoffset := 0 } : FILETABLE))
    _ h3fd
  refine ⟨s1, s2, s3, _, _, _, hres, hw, h2fd, h2ino, addInt_zero 5, hl, hrd, ?_⟩
  exact ReadFile_eof _ 0 _ _ 10 (set_getElem?_self _ _ _ _ h3fd) (Or.inr rfl) h3ino (Or.inr rfl)
    (by simp [addInt_zero])

/-- C20: from the state right after start-up (no fresh inode block spelling
`a.txt`, the buffer block being 2048 bytes long), `create a.txt 3` returns
descriptor 0; writing `hello` through it returns 5 and leaves the actual size
of its inode at 5; `LseekFile 0 0 START` returns 0; reading 10 bytes returns 5
and hands back exactly the bytes of `hello`; reading 10 bytes again returns -3
(end of file). -/
theorem C20_hello_scenario (g : Nat → INODE) (fb : FILETABLE) (bb : List Nat)
    (hblock : ∀ n : Nat, (g n).FileName ≠ "a.txt")
    (hbb : bb.length = 2048) :
    ∃ (s1 s2 s3 s4 : VFS) (ft : FILETABLE) (ino : INODE),
      CreateFile (start (fun n => some (g n))) (some "a.txt") 3 (some fb) (some bb)
        = some (0, s1) ∧
      WriteFile s1 0 hello 5 = some (5, s2) ∧
      s2.UFDTArr[0]? = some (some ft) ∧ s2.head[ft.ptrinode]? = some ino ∧
      ino.FileActualSize = 5 ∧
      LseekFile s2 0 0 START = some (0, s3) ∧
      ReadFile s3 0 10 = some (5, hello, s4) ∧
      ReadFile s4 0 10 = some (-3, [], s4) := by
  obtain ⟨hinv0, hnames0⟩ := start_created g
  have hfresh : ∀ ino ∈ (start (fun n => some (g n))).head, ino.FileName ≠ "a.txt" := by
    intro ino hino
    obtain ⟨n, hn⟩ := hnames0 ino hino
    rw [hn]
    exact hblock n
  exact hello_scenario_from (start (fun n => some (g n))) fb bb hinv0 hfresh hbb

/-- C20 at the start-up state `state0` with zero-filled blocks. -/
theorem C20_hello_scenario_witness :
    ∃ (s1 s2 s3 s4 : VFS) (ft : FILETABLE) (ino : INODE),
      CreateFile state0 (some "a.txt") 3 (some zeroTable) (some zeroBuffer) = some (0, s1) ∧
      WriteFile s1 0 hello 5 = some (5, s2) ∧
      s2.UFDTArr[0]? = some (some ft) ∧ s2.head[ft.ptrinode]? = some ino ∧
      ino.FileActualSize = 5 ∧
      LseekFile s2 0 0 START = some (0, s3) ∧
      ReadFile s3 0 10 = some (5, hello, s4) ∧
      ReadFile s4 0 10 = some (-3, [], s4) :=
  C20_hello_scenario (fun _ => zeroInode) zeroTable zeroBuffer
    (fun _ => (by decide : zeroInode.FileName ≠ "a.txt"))
    (List.length_replicate 2048 0)

/-! ## What a call does to the names, the types and the link counts -/

/-- Assigning a position a value with the same image leaves the mapped list as
it was. -/
theorem map_set_same {α β : Type} (l : List α) (i : Nat) (a b : α) (f : α → β)
    (h : l[i]? = some a) (hf : f b = f a) : (l.set i b).map f = l.map f := by
  apply List.ext_getElem?
  intro j
  rw [List.getElem?_map, List.getElem?_map]
  by_cases hj : i = j
  · subst hj
    rw [set_getElem?_self l i b a h, h]
    simp [hf]
  · rw [set_getElem?_other l i j b hj]

/-- The map of a list with one position assigned. -/
theorem map_set_eq {α β : Type} (l : List α) (i : Nat) (b : α) (f : α → β) :
    (l.set i b).map f = (l.map f).set i (f b) := by
  apply List.ext_getElem?
  intro j
  simp only [List.getElem?_map, List.getElem?_set, List.length_map]
  split_ifs <;> simp

/-- A run of `WriteFile` changes no name, type or link count. -/
theorem WriteFile_registry (s : VFS) (fd : Nat) (arr : List Nat) (isize : Int)
    (r : Int × VFS) (h : WriteFile s fd arr isize = some r) : registry r.2 = registry s := by
  unfold WriteFile at h
  simp only at h
  repeat' split at h
  all_goals first
    | (cases h; done)
    | (cases h; rfl)
    | (cases h
       unfold registry
       apply map_set_same
       · assumption
       · rfl)

/-- A run of `ReadFile` changes no inode. -/
theorem ReadFile_head (s : VFS) (fd : Nat) (isize : Int)
    (r : Int × List Nat × VFS) (h : ReadFile s fd isize = some r) : r.2.2.head = s.head := by
  unfold ReadFile at h
  simp only at h
  repeat' split at h
  all_goals first
    | (cases h; done)
    | (cases h; rfl)

/-- A run of `LseekFile` changes no name, type or link count. -/
theorem LseekFile_registry (s : VFS) (fd size from_ : Int)
    (r : Int × VFS) (h : LseekFile s fd size from_ = some r) : registry r.2 = registry s := by
  unfold LseekFile at h
  simp only at h
  repeat' split at h
  all_goals first
    | (cases h; done)
    | (cases h; rfl)
    | (cases h
       unfold registry
       apply map_set_same
       · assumption
       · rfl)

/-- A run of `CloseFileByName(int)` changes no name, type or link count. -/
theorem CloseFileByName_registry (s : VFS) (fd : Nat) (s1 : VFS)
    (h : CloseFileByName s fd = some s1) : registry s1 = registry s := by
  unfold CloseFileByName at h
  simp only at h
  repeat' split at h
  all_goals first
    | (cases h; done)
    | (cases h; rfl)
    | (cases h
       unfold registry
       apply map_set_same
       · assumption
       · rfl)

/-- A run of `CloseFileByName(char*)` changes no name, type or link count. -/
theorem CloseFileByName_name_registry (s : VFS) (name : String) (r : Int × VFS)
    (h : CloseFileByName_name s name = some r) : registry r.2 = registry s := by
  unfold CloseFileByName_name at h
  split at h
  · cases h
  · split at h
    · cases h
      rfl
    · rename_i i _ _
      cases hc : CloseFileByName s i.toNat with
      | none => simp [hc] at h
      | some s1 =>
        simp only [hc, Option.map_some', Option.some.injEq] at h
        rw [← h]
        exact CloseFileByName_registry s i.toNat s1 hc

/-- The loop of `CloseAllFile` changes no name, type or link count. -/
theorem CloseAllFile_loop_registry (fuel : Nat) :
    ∀ (i : Nat) (s s1 : VFS), CloseAllFile.loop fuel i s = some s1 →
      registry s1 = registry s := by
  induction fuel with
  | zero =>
    intro i s s1 h
    simp only [CloseAllFile.loop, Option.some.injEq] at h
    rw [h]
  | succ fuel ih =>
    intro i s s1 h
    simp only [CloseAllFile.loop] at h
    split at h
    · cases h
    · exact ih _ _ _ h
    · cases hc : CloseFileByName s i with
      | none => simp [hc] at h
      | some s2 =>
        simp only [hc, Option.some_bind] at h
        rw [ih _ _ _ h]
        exact CloseFileByName_registry s i s2 hc

/-- A run of `truncate_File` changes no name, type or link count. -/
theorem truncate_File_registry (s : VFS) (name : String) (r : Int × VFS)
    (h : truncate_File s name = some r) : registry r.2 = registry s := by
  unfold truncate_File at h
  cases hg : GetFDFromName s name with
  | none =>
    rw [hg] at h
    cases h
  | some fd =>
    rw [hg] at h
    simp only at h
    by_cases hfd : fd = -1
    · rw [if_pos hfd] at h
      cases h
      rfl
    · rw [if_neg hfd] at h
      cases hslot : s.UFDTArr[fd.toNat]? with
      | none =>
        rw [hslot] at h
        cases h
      | some e =>
        cases e with
        | none =>
          rw [hslot] at h
          cases h
        | some ft =>
          rw [hslot] at h
          simp only at h
          cases hino : s.head[ft.ptrinode]? with
          | none =>
            rw [hino] at h
            cases h
          | some ino =>
            rw [hino] at h
            simp only at h
            cases hb : ino.Buffer with
            | none =>
              rw [hb] at h
              cases h
            | some buf =>
              rw [hb] at h
              simp only at h
              cases hst : store buf 0 (List.replicate MAXFILESIZE.toNat 0) with
              | none =>
                rw [hst] at h
                cases h
              | some buf1 =>
                rw [hst] at h
                simp only [Option.some.injEq] at h
                rw [← h]
                exact map_set_same _ _ _ _ _ hino rfl

/-- A run of `OpenFile` changes no name, type or link count. -/
theorem OpenFile_registry (s : VFS) (name : Option String) (m : Int)
    (ftBlock : Option FILETABLE) : registry (OpenFile s name m ftBlock).2 = registry s := by
  unfold OpenFile
  simp only
  repeat' split
  all_goals first
    | rfl
    | (unfold registry
       apply map_set_same
       · assumption
       · rfl)

/-- What `CreateFile` does to the names, the types and the link counts: nothing,
or it turns one position into the new name with type `REGULAR` and link count
1, a name no inode carried. -/
theorem CreateFile_registry (s : VFS) (name : Option String) (p : Int)
    (ftBlock : Option FILETABLE) (bufBlock : Option (List Nat)) (r : Int × VFS)
    (h : CreateFile s name p ftBlock bufBlock = some r) :
    registry r.2 = registry s ∨
    ∃ (t : Nat) (nm : String), (∀ x ∈ registry s, x.1 ≠ nm) ∧ t < (registry s).length ∧
      registry r.2 = (registry s).set t (nm, REGULAR, 1) := by
  unfold CreateFile at h
  cases name with
  | none =>
    cases h
    exact Or.inl rfl
  | some nm =>
    simp only at h
    split at h
    · cases h
      exact Or.inl rfl
    · split at h
      · cases h
        exact Or.inl rfl
      · split at h
        · cases h
          exact Or.inl rfl
        · rename_i h3
          split at h
          · cases h
            exact Or.inl rfl
          · rename_i t ht
            split at h
            · cases h
              exact Or.inl rfl
            · rename_i temp htemp
              split at h
              · cases h
                exact Or.inl rfl
              · rename_i i hi
                have hnone : List.findIdx? (fun ino => ino.FileName == nm) s.head = none := by
                  cases hf : List.findIdx? (fun ino => ino.FileName == nm) s.head with
                  | none => rfl
                  | some k => exact absurd (by simp [Get_Inode, hf]) h3
                rw [List.findIdx?_eq_none_iff] at hnone
                have hfresh : ∀ x ∈ registry s, x.1 ≠ nm := by
                  intro x hx
                  unfold registry at hx
                  obtain ⟨ino, hino, rfl⟩ := List.mem_map.mp hx
                  simpa using hnone ino hino
                have htl : t < (registry s).length := by
                  have h0 : s.head[t]? = some temp := htemp
                  rw [List.getElem?_eq_some] at h0
                  obtain ⟨hl, _⟩ := h0
                  unfold registry
                  rw [List.length_map]
                  exact hl
                cases ftBlock with
                | none =>
                  cases h
                  exact Or.inl rfl
                | some blk =>
                  simp only at h
                  split at h
                  · cases h
                  · cases bufBlock with
                    | none =>
                      cases h
                      right
                      refine ⟨t, nm, hfresh, htl, ?_⟩
                      unfold registry
                      exact map_set_eq _ _ _ _
                    | some buf =>
                      cases h
                      right
                      refine ⟨t, nm, hfresh, htl, ?_⟩
                      unfold registry
                      exact map_set_eq _ _ _ _

/-- What `rm_File` does to the names, the types and the link counts: nothing, or
it lowers one link count by 1 and sets the type at that position to 0 when the
new link count is 0. -/
theorem rm_File_registry (s : VFS) (name : String) (r : Int × VFS)
    (h : rm_File s name = some r) :
    registry r.2 = registry s ∨
    ∃ (p : Nat) (nm : String) (ty lc : Int), (registry s)[p]? = some (nm, ty, lc) ∧
      registry r.2 = (registry s).set p (nm, (if lc - 1 = 0 then 0 else ty), lc - 1) := by
  unfold rm_File at h
  cases hg : GetFDFromName s name with
  | none =>
    rw [hg] at h
    cases h
  | some fd =>
    rw [hg] at h
    simp only at h
    by_cases hfd : fd = -1
    · rw [if_pos hfd] at h
      cases h
      exact Or.inl rfl
    · rw [if_neg hfd] at h
      cases hslot : s.UFDTArr[fd.toNat]? with
      | none =>
        rw [hslot] at h
        cases h
      | some e =>
        cases e with
        | none =>
          rw [hslot] at h
          cases h
        | some ft =>
          rw [hslot] at h
          simp only at h
          cases hino : s.head[ft.ptrinode]? with
          | none =>
            rw [hino] at h
            cases h
          | some ino =>
            rw [hino] at h
            simp only [Option.some.injEq] at h
            rw [← h]
            right
            refine ⟨ft.ptrinode, ino.FileName, ino.FileType, ino.LinkCount, ?_, ?_⟩
            · unfold registry
              rw [List.getElem?_map, hino]
              rfl
            · unfold registry
              simp only
              rw [map_set_eq]
              congr 1
              split_ifs <;> rfl

/-- What one call does to the names, the types and the link counts. -/
theorem step_registry (s s1 : VFS) (op : Op) (h : step s op = some s1) :
    registry s1 = registry s ∨
    (∃ (t : Nat) (nm : String), (∀ x ∈ registry s, x.1 ≠ nm) ∧ t < (registry s).length ∧
      registry s1 = (registry s).set t (nm, REGULAR, 1)) ∨
    (∃ (p : Nat) (nm : String) (ty lc : Int), (registry s)[p]? = some (nm, ty, lc) ∧
      registry s1 = (registry s).set p (nm, (if lc - 1 = 0 then 0 else ty), lc - 1)) := by
  cases op with
  | create name permission ftBlock bufBlock =>
    simp only [step, Option.map_eq_some'] at h
    obtain ⟨r, hr, rfl⟩ := h
    rcases CreateFile_registry s name permission ftBlock bufBlock r hr with h1 | h1
    · exact Or.inl h1
    · exact Or.inr (Or.inl h1)
  | openFile name mode ftBlock =>
    simp only [step, Option.some.injEq] at h
    rw [← h]
    exact Or.inl (OpenFile_registry s name mode ftBlock)
  | close fd =>
    exact Or.inl (CloseFileByName_registry s fd s1 h)
  | closeName name =>
    simp only [step, Option.map_eq_some'] at h
    obtain ⟨r, hr, rfl⟩ := h
    exact Or.inl (CloseFileByName_name_registry s name r hr)
  | closeAll =>
    exact Or.inl (CloseAllFile_loop_registry 50 0 s s1 h)
  | read fd isize =>
    simp only [step, Option.map_eq_some'] at h
    obtain ⟨r, hr, rfl⟩ := h
    left
    unfold registry
    rw [ReadFile_head s fd isize r hr]
  | write fd arr isize =>
    simp only [step, Option.map_eq_some'] at h
    obtain ⟨r, hr, rfl⟩ := h
    exact Or.inl (WriteFile_registry s fd arr isize r hr)
  | seek fd size from_ =>
    simp only [step, Option.map_eq_some'] at h
    obtain ⟨r, hr, rfl⟩ := h
    exact Or.inl (LseekFile_registry s fd size from_ r hr)
  | unlink name =>
    simp only [step, Option.map_eq_some'] at h
    obtain ⟨r, hr, rfl⟩ := h
    rcases rm_File_registry s name r hr with h1 | h1
    · exact Or.inl h1
    · exact Or.inr (Or.inr h1)
  | truncate name =>
    simp only [step, Option.map_eq_some'] at h
    obtain ⟨r, hr, rfl⟩ := h
    exact Or.inl (truncate_File_registry s name r hr)

/-! ## States reached by a sequence of calls -/

/-- Every inode `CreateDILB` builds has type 0 and link count 0. -/
theorem CreateDILB_loop_unused (blocks : Nat → Option INODE) (fuel : Nat) :
    ∀ (i : Nat) (acc : List INODE), (∀ ino ∈ acc, ino.FileType = 0 ∧ ino.LinkCount = 0) →
      ∀ ino ∈ CreateDILB.loop blocks fuel i acc, ino.FileType = 0 ∧ ino.LinkCount = 0 := by
  induction fuel with
  | zero =>
    intro i acc hacc ino hino
    exact hacc ino hino
  | succ fuel ih =>
    intro i acc hacc ino hino
    unfold CreateDILB.loop at hino
    cases hb : blocks i with
    | none =>
      rw [hb] at hino
      exact hacc ino hino
    | some b =>
      rw [hb] at hino
      refine ih (i + 1) _ ?_ ino hino
      intro x hx
      rcases List.mem_append.mp hx with hx1 | hx1
      · exact hacc x hx1
      · rw [List.mem_singleton] at hx1
        rw [hx1]
        exact ⟨rfl, rfl⟩

/-- Every entry of the registry of the start-up state has type 0 and link count
0, whatever blocks `malloc` handed out. -/
theorem start_registry (blocks : Nat → Option INODE) :
    ∀ x ∈ registry (start blocks), x.2.1 = 0 ∧ x.2.2 = 0 := by
  intro x hx
  unfold registry at hx
  obtain ⟨ino, hino, rfl⟩ := List.mem_map.mp hx
  exact CreateDILB_loop_unused blocks MAXINODE 1 [] (fun _ h => absurd h (List.not_mem_nil _))
    ino hino

/-- A property of the registry that every call keeps holds after every run. -/
theorem run_invariant (P : List (String × Int × Int) → Prop)
    (hstep : ∀ (s s1 : VFS) (op : Op), step s op = some s1 → P (registry s) → P (registry s1))
    (ops : List Op) : ∀ (s s1 : VFS), run s ops = some s1 → P (registry s) → P (registry s1) := by
  induction ops with
  | nil =>
    intro s s1 h hP
    simp only [run, Option.some.injEq] at h
    rw [← h]
    exact hP
  | cons op ops ih =>
    intro s s1 h hP
    simp only [run] at h
    cases hs : step s op with
    | none =>
      rw [hs] at h
      cases h
    | some s2 =>
      rw [hs] at h
      exact ih s2 s1 h (hstep s s2 op hs hP)

/-! ## Runs that break an invariant -/

/-- C21, the code at the failing input: after `create a 3`, a write of 2049
characters on descriptor 0 (2048 are stored), `open a 2` (descriptor 1, write
offset 0), the write of one character on descriptor 1 returns 1 and leaves the
inode of `a` with type `REGULAR`, capacity 2048 and actual size 2049. -/
theorem C21_actual_size_over_capacity :
    (run state0 [createA, Op.write 0 longData 2049, Op.openFile (some "a") 2 (some zeroTable)]).map
        (fun s => (WriteFile s 1 [120] 1).map (fun r => r.1)) = some (some 1) ∧
    (run state0 [createA, Op.write 0 longData 2049, Op.openFile (some "a") 2 (some zeroTable),
        Op.write 1 [120] 1]).map
        (fun s => s.head[0]?.map (fun ino => (ino.FileType, ino.FileSize, ino.FileActualSize)))
      = some (some (REGULAR, 2048, 2049)) := by
  refine ⟨?_, ?_⟩ <;> decide!

/-- C22, the code at the failing input: after `create a 3` twice (the second
call returns -3), the free inode count is 48 while 49 inodes have type 0. -/
theorem C22_free_count_after_failed_create :
    (run state0 [createA]).bind
        (fun s => (CreateFile s (some "a") 3 (some zeroTable) (some zeroBuffer)).map
          (fun r => r.1)) = some (-3) ∧
    (run state0 [createA, createA]).map
        (fun s => (s.SUPERBLOCKobj.FreeInodes,
          (s.head.filter (fun ino => ino.FileType == 0)).length)) = some (48, 49) := by
  refine ⟨?_, ?_⟩ <;> decide!

/-- C23, the code at the failing input: after `create a 3`, a write of `hello`
and `seek(0, 3, END)` (read offset 8), the call `seek(0, -6, END)` returns 0 and
leaves descriptor 0 with read offset -1. -/
theorem C23_negative_read_offset :
    (run state0 [createA, Op.write 0 hello 5, Op.seek 0 3 END]).map
        (fun s => (LseekFile s 0 (-6) END).map (fun r => r.1)) = some (some 0) ∧
    (run state0 [createA, Op.write 0 hello 5, Op.seek 0 3 END, Op.seek 0 (-6) END]).map
        (fun s => s.UFDTArr[0]?.map (fun e => e.map (fun ft => ft.readoffset)))
      = some (some (some (-1))) := by
  refine ⟨?_, ?_⟩ <;> decide!

/-- C24, the code at the failing input: after `create a 3`, `open a 3` and
`rm a`, descriptor slot 1 is still occupied and references inode 0 of the list,
whose type is 0. -/
theorem C24_descriptor_on_released_inode :
    (run state0 [createA, openA, Op.unlink "a"]).map
        (fun s => (s.UFDTArr[1]?.map (fun e => e.map (fun ft => ft.ptrinode)),
          s.head[0]?.map (fun ino => ino.FileType))) = some (some (some 0), some 0) := by
  decide!

/-- C25, the code at the failing input: right after start-up, `create` with the
same name of 60 characters twice. Already the first call runs the `strcpy` of
the name past the 50 bytes of `FileName` (what `FileName` then holds is no
longer the name that was given, and the duplicate test of the second call
compares against it): the run has no defined state. -/
theorem C25_long_name_twice :
    longName.utf8ByteSize = 60 ∧
    step state0 createLong = none ∧
    run state0 [createLong, createLong] = none := by
  refine ⟨?_, ?_, ?_⟩ <;> decide!

/-- C27, the code at the failing input: after `create a 3` and `rm a` (the
inode of `a` has type 0 and link count 0), `open a 3` returns descriptor 0,
bound to that inode, whose type is still 0. -/
theorem C27_open_released_name :
    (run state0 [createA, Op.unlink "a"]).map
        (fun s => s.head[0]?.map (fun ino => (ino.FileName, ino.FileType, ino.LinkCount)))
      = some (some ("a", 0, 0)) ∧
    (run state0 [createA, Op.unlink "a"]).map
        (fun s => (OpenFile s (some "a") 3 (some zeroTable)).1) = some 0 ∧
    (run state0 [createA, Op.unlink "a", openA]).map
        (fun s => (s.UFDTArr[0]?.map (fun e => e.map (fun ft => ft.ptrinode)),
          s.head[0]?.map (fun ino => ino.FileType))) = some (some (some 0), some 0) := by
  refine ⟨?_, ?_, ?_⟩ <;> decide!

/-- C28, the code at the failing input: after `create a 3`, a write of `hello`
and `seek(0, 3, END)` the read offset of descriptor 0 is 8 and the actual size
5, and `read(0, 1)` passes the end-of-file test and calls `strncpy` with the
count -3, which is not defined. The same happens on descriptor 1 after
`create a 3`, a write of `hello`, `open a 3`, `read(1, 3)` and `truncate a`
(read offset 3, actual size 0). -/
theorem C28_read_past_the_data :
    (run state0 [createA, Op.write 0 hello 5, Op.seek 0 3 END]).map
        (fun s => (s.UFDTArr[0]?.map (fun e => e.map (fun ft => ft.readoffset)),
          s.head[0]?.map (fun ino => ino.FileActualSize))) = some (some (some 8), some 5) ∧
    (run state0 [createA, Op.write 0 hello 5, Op.seek 0 3 END]).map
        (fun s => (ReadFile s 0 1).map (fun r => r.1)) = some none ∧
    (run state0 [createA, Op.write 0 hello 5, openA, Op.read 1 3, Op.truncate "a"]).map
        (fun s => (s.UFDTArr[1]?.map (fun e => e.map (fun ft => ft.readoffset)),
          s.head[0]?.map (fun ino => ino.FileActualSize))) = some (some (some 3), some 0) ∧
    (run state0 [createA, Op.write 0 hello 5, openA, Op.read 1 3, Op.truncate "a"]).map
        (fun s => (ReadFile s 1 1).map (fun r => r.1)) = some none := by
  refine ⟨?_, ?_, ?_, ?_⟩ <;> decide!

/-- C29, the code at the failing input: after `create a 3` twice and `rm a` no
inode has a type other than 0, yet `ls_file` prints the table (with no row)
instead of the message; after `create a 3`, `open a 3`, `create b 3` and `rm a`
twice the inode of `b` has type `REGULAR`, yet `ls_file` prints the message. -/
theorem C29_list_follows_the_counter :
    (run state0 [createA, createA, Op.unlink "a"]).map
        (fun s => (s.head.filter (fun ino => ino.FileType != 0)).length) = some 0 ∧
    (run state0 [createA, createA, Op.unlink "a"]).map ls_file = some (some []) ∧
    (run state0 [createA, openA, createB, Op.unlink "a", Op.unlink "a"]).map
        (fun s => (s.head.filter (fun ino => ino.FileType != 0)).map
          (fun ino => (ino.FileName, ino.FileType))) = some [("b", REGULAR)] ∧
    (run state0 [createA, openA, createB, Op.unlink "a", Op.unlink "a"]).map ls_file
      = some none := by
  refine ⟨?_, ?_, ?_, ?_⟩ <;> decide!

/-- C30, the code at the failing input: in `stateTwo` descriptors 0 and 1 are
open on the same inode, of reference count 2; after `CloseAllFile` slot 1 is
empty and slot 0 is still occupied. -/
theorem C30_close_all_leaves_slot :
    stateTwo.UFDTArr[0]? = some (some entryA) ∧
    stateTwo.UFDTArr[1]? = some (some entryTwo) ∧
    stateTwo.head[0]? = some inodeTwo ∧
    (CloseAllFile stateTwo).map (fun s1 => (s1.UFDTArr[0]?, s1.UFDTArr[1]?))
      = some (some (some entryA), some none) ∧
    (CloseAllFile stateTwo).map (fun s1 => s1.UFDTArr[0]?) ≠ some (some none) := by
  refine ⟨?_, ?_, ?_, ?_, ?_⟩ <;> decide!

/-- C26, the code at the failing input: after `create a 3`, `open a 3` and
`close 0` the reference count of `a` is 1 while slots 0 and 1 both reference
its inode; two more calls, `close 0` and `close 1`, bring the count to -1 with
slot 1 still occupied; and after `create a 3` and `rm a` the count of the
released inode is 1 while no slot is occupied. -/
theorem C26_reference_count_drift :
    (run state0 [createA, openA, closeZero]).map
        (fun s => (s.head[0]?.map (fun ino => ino.ReferenceCount), occupied s 0))
      = some (some 1, 2) ∧
    (run state0 [createA, openA, closeZero, closeZero, Op.close 1]).map
        (fun s => (s.head[0]?.map (fun ino => ino.ReferenceCount), occupied s 0))
      = some (some (-1), 1) ∧
    (run state0 [createA, Op.unlink "a"]).map
        (fun s => (s.head[0]?.map (fun ino => ino.ReferenceCount), occupied s 0))
      = some (some 1, 0) := by
  refine ⟨?_, ?_, ?_⟩ <;> decide!

/-! ## Kinds and link counts in reachable states -/

/-- Every call keeps every inode either of type 0 or of type `REGULAR` with
link count 1. -/
theorem step_kinds (s s1 : VFS) (op : Op) (h : step s op = some s1)
    (hP : ∀ x ∈ registry s, x.2.1 = 0 ∨ (x.2.1 = REGULAR ∧ x.2.2 = 1)) :
    ∀ x ∈ registry s1, x.2.1 = 0 ∨ (x.2.1 = REGULAR ∧ x.2.2 = 1) := by
  rcases step_registry s s1 op h with h1 | ⟨t, nm, _, _, h1⟩ | ⟨p, nm, ty, lc, hp, h1⟩
  · rw [h1]
    exact hP
  · rw [h1]
    intro x hx
    rcases List.mem_or_eq_of_mem_set hx with hx1 | hx1
    · exact hP x hx1
    · rw [hx1]
      exact Or.inr ⟨rfl, rfl⟩
  · rw [h1]
    intro x hx
    rcases List.mem_or_eq_of_mem_set hx with hx1 | hx1
    · exact hP x hx1
    · rw [hx1]
      rcases hP _ (List.getElem?_mem hp) with h0 | ⟨_, hlc⟩
      · left
        simp only at h0 ⊢
        rw [h0]
        split_ifs <;> rfl
      · left
        simp only at hlc ⊢
        rw [hlc]
        rfl

/-- C32: in every state that a finite sequence of calls (create, open, close,
close by name, close all, read, write, seek, unlink, truncate) reaches from
the start-up state, every inode has type 0 (unused) or `REGULAR`, never
`SPECIAL`, and every inode of type `REGULAR` has link count 1. -/
theorem C32_unused_or_regular (blocks : Nat → Option INODE) (ops : List Op) (s : VFS)
    (hrun : run (start blocks) ops = some s) (ino : INODE) (hino : ino ∈ s.head) :
    (ino.FileType = 0 ∨ ino.FileType = REGULAR) ∧ ino.FileType ≠ SPECIAL ∧
    (ino.FileType = REGULAR → ino.LinkCount = 1) := by
  have hinv := run_invariant
    (fun R => ∀ x ∈ R, x.2.1 = 0 ∨ (x.2.1 = REGULAR ∧ x.2.2 = 1))
    step_kinds ops (start blocks) s hrun
    (fun x hx => Or.inl (start_registry blocks x hx).1)
  have hmem : (ino.FileName, ino.FileType, ino.LinkCount) ∈ registry s :=
    List.mem_map.mpr ⟨ino, hino, rfl⟩
  rcases hinv _ hmem with h0 | ⟨h1, h2⟩
  · simp only at h0
    refine ⟨Or.inl h0, ?_, ?_⟩
    · rw [h0]
      decide
    · intro hr
      rw [h0] at hr
      exact absurd hr (by decide)
  · simp only at h1 h2
    refine ⟨Or.inr h1, ?_, fun _ => h2⟩
    rw [h1]
    decide

/-- C32 at the run `create a 3`, `create b 3` from `state0` and the inode of
`a`. -/
theorem C32_unused_or_regular_witness :
    run state0 [createA, createB] = some stateAB ∧ inodeA ∈ stateAB.head ∧
    (inodeA.FileType = 0 ∨ inodeA.FileType = REGULAR) ∧ inodeA.FileType ≠ SPECIAL ∧
    (inodeA.FileType = REGULAR → inodeA.LinkCount = 1) :=
  ⟨by decide!, by decide!,
   C32_unused_or_regular (fun _ => some zeroInode) [createA, createB] stateAB (by decide!)
     inodeA (by decide!)⟩

/-! ## Calls that fail -/

/-- A call of `ReadFile` that returns a negative code leaves the state as it
was. -/
theorem ReadFile_failure (s : VFS) (fd : Nat) (isize : Int) (r : Int × List Nat × VFS)
    (h : ReadFile s fd isize = some r) (hneg : r.1 < 0) : r.2.2 = s := by
  unfold ReadFile at h
  simp only at h
  repeat' split at h
  all_goals first
    | (cases h; done)
    | (cases h
       simp only at hneg
       omega)
    | (cases h; rfl)

/-- A call of `WriteFile` that returns a negative code leaves the state as it
was. -/
theorem WriteFile_failure (s : VFS) (fd : Nat) (arr : List Nat) (isize : Int) (r : Int × VFS)
    (h : WriteFile s fd arr isize = some r) (hneg : r.1 < 0) : r.2 = s := by
  unfold WriteFile at h
  simp only at h
  repeat' split at h
  all_goals first
    | (cases h; done)
    | (cases h
       simp only at hneg
       omega)
    | (cases h; rfl)

/-- A call of `LseekFile` that returns a negative code leaves the state as it
was. -/
theorem LseekFile_failure (s : VFS) (fd size from_ : Int) (r : Int × VFS)
    (h : LseekFile s fd size from_ = some r) (hneg : r.1 < 0) : r.2 = s := by
  unfold LseekFile at h
  simp only at h
  repeat' split at h
  all_goals first
    | (cases h; done)
    | (cases h
       simp only at hneg
       omega)
    | (cases h; rfl)

/-- A call of `OpenFile` that returns a negative code leaves the state as it
was. -/
theorem OpenFile_failure (s : VFS) (name : Option String) (mode : Int)
    (ftBlock : Option FILETABLE) (hneg : (OpenFile s name mode ftBlock).1 < 0) :
    (OpenFile s name mode ftBlock).2 = s := by
  have key : ∀ r : Int × VFS, OpenFile s name mode ftBlock = r → r.1 < 0 → r.2 = s := by
    intro r h hr
    unfold OpenFile at h
    cases name with
    | none =>
      cases h
      rfl
    | some nm =>
      simp only at h
      repeat' split at h
      all_goals first
        | (cases h
           simp only at hr
           omega)
        | (cases h; rfl)
  exact key _ rfl hneg

/-- A call of `CloseFileByName(char*)` that returns a negative code leaves the
state as it was. -/
theorem CloseFileByName_name_failure (s : VFS) (name : String) (r : Int × VFS)
    (h : CloseFileByName_name s name = some r) (hneg : r.1 < 0) : r.2 = s := by
  unfold CloseFileByName_name at h
  repeat' split at h
  all_goals first
    | (cases h; done)
    | (cases h; rfl)
    | (simp only [Option.map_eq_some'] at h
       obtain ⟨_, _, rfl⟩ := h
       simp only at hneg
       omega)

/-- A call of `rm_File` that returns a negative code leaves the state as it
was. -/
theorem rm_File_failure (s : VFS) (name : String) (r : Int × VFS)
    (h : rm_File s name = some r) (hneg : r.1 < 0) : r.2 = s := by
  unfold rm_File at h
  repeat' split at h
  all_goals first
    | (cases h; done)
    | (cases h
       simp only at hneg
       omega)
    | (cases h; rfl)

/-- A call of `truncate_File` that returns a negative code leaves the state as
it was. -/
theorem truncate_File_failure (s : VFS) (name : String) (r : Int × VFS)
    (h : truncate_File s name = some r) (hneg : r.1 < 0) : r.2 = s := by
  unfold truncate_File at h
  cases hg : GetFDFromName s name with
  | none =>
    rw [hg] at h
    cases h
  | some fd =>
    rw [hg] at h
    simp only at h
    by_cases hfd : fd = -1
    · rw [if_pos hfd] at h
      cases h
      rfl
    · rw [if_neg hfd] at h
      cases hslot : s.UFDTArr[fd.toNat]? with
      | none =>
        rw [hslot] at h
        cases h
      | some e =>
        cases e with
        | none =>
          rw [hslot] at h
          cases h
        | some ft =>
          rw [hslot] at h
          simp only at h
          cases hino : s.head[ft.ptrinode]? with
          | none =>
            rw [hino] at h
            cases h
          | some ino =>
            rw [hino] at h
            simp only at h
            cases hb : ino.Buffer with
            | none =>
              rw [hb] at h
              cases h
            | some buf =>
              rw [hb] at h
              simp only at h
              cases hst : store buf 0 (List.replicate MAXFILESIZE.toNat 0) with
              | none =>
                rw [hst] at h
                cases h
              | some buf1 =>
                rw [hst] at h
                simp only [Option.some.injEq] at h
                rw [← h] at hneg
                simp only at hneg
                omega

/-- C31: a call of `ReadFile`, `WriteFile`, `LseekFile` or `OpenFile` that
returns a negative code leaves the whole state (descriptor table, superblock,
inodes and buffers) as it was; so do the other calls that can fail,
`CloseFileByName(char*)`, `rm_File` and `truncate_File`; a call of `CreateFile`
that fails can change the state: `create a 3` on `stateA` returns -3 and leaves
another state. -/
theorem C31_failure_atomicity :
    (∀ (s : VFS) (fd : Nat) (isize : Int) (r : Int × List Nat × VFS),
      ReadFile s fd isize = some r → r.1 < 0 → r.2.2 = s) ∧
    (∀ (s : VFS) (fd : Nat) (arr : List Nat) (isize : Int) (r : Int × VFS),
      WriteFile s fd arr isize = some r → r.1 < 0 → r.2 = s) ∧
    (∀ (s : VFS) (fd size from_ : Int) (r : Int × VFS),
      LseekFile s fd size from_ = some r → r.1 < 0 → r.2 = s) ∧
    (∀ (s : VFS) (name : Option String) (mode : Int) (ftBlock : Option FILETABLE),
      (OpenFile s name mode ftBlock).1 < 0 → (OpenFile s name mode ftBlock).2 = s) ∧
    (∀ (s : VFS) (name : String) (r : Int × VFS),
      CloseFileByName_name s name = some r → r.1 < 0 → r.2 = s) ∧
    (∀ (s : VFS) (name : String) (r : Int × VFS),
      rm_File s name = some r → r.1 < 0 → r.2 = s) ∧
    (∀ (s : VFS) (name : String) (r : Int × VFS),
      truncate_File s name = some r → r.1 < 0 → r.2 = s) ∧
    (CreateFile stateA (some "a") 3 (some zeroTable) (some zeroBuffer)).map (fun r => r.1)
      = some (-3) ∧
    (CreateFile stateA (some "a") 3 (some zeroTable) (some zeroBuffer)).map (fun r => r.2)
      ≠ some stateA :=
  ⟨ReadFile_failure, WriteFile_failure, LseekFile_failure, OpenFile_failure,
   CloseFileByName_name_failure, rm_File_failure, truncate_File_failure,
   by decide!, by decide!⟩

/-- C31 at seven failing calls: a read at the end of the empty file `a`, a
write through the read-only descriptor of `stateR`, a seek past the end, an
open for writing of a read-only file, and a close by name, an `rm` and a
truncate of a name that is not open. -/
theorem C31_failure_atomicity_witness :
    (ReadFile stateA 0 1).map (fun r => r.1) = some (-3) ∧
    (ReadFile stateA 0 1).map (fun r => r.2.2) = some stateA ∧
    (WriteFile stateR 0 hello 5).map (fun r => r.1) = some (-1) ∧
    (WriteFile stateR 0 hello 5).map (fun r => r.2) = some stateR ∧
    (LseekFile stateA 0 6 START).map (fun r => r.1) = some (-1) ∧
    (LseekFile stateA 0 6 START).map (fun r => r.2) = some stateA ∧
    (OpenFile stateR (some "a") 2 (some zeroTable)).1 = -3 ∧
    (OpenFile stateR (some "a") 2 (some zeroTable)).2 = stateR ∧
    (CloseFileByName_name state0 "a").map (fun r => r.1) = some (-1) ∧
    (CloseFileByName_name state0 "a").map (fun r => r.2) = some state0 ∧
    (rm_File state0 "a").map (fun r => r.1) = some (-1) ∧
    (rm_File state0 "a").map (fun r => r.2) = some state0 ∧
    (truncate_File state0 "a").map (fun r => r.1) = some (-1) ∧
    (truncate_File state0 "a").map (fun r => r.2) = some state0 :=
  ⟨by decide!,
   congrArg some
     (C31_failure_atomicity.1 stateA 0 1 (-3, [], stateA) (by decide!) (by decide)),
   by decide!,
   congrArg some
     (C31_failure_atomicity.2.1 stateR 0 hello 5 (-1, stateR) (by decide!) (by decide)),
   by decide!,
   congrArg some
     (C31_failure_atomicity.2.2.1 stateA 0 6 START (-1, stateA) (by decide!) (by decide)),
   by decide!,
   C31_failure_atomicity.2.2.2.1 stateR (some "a") 2 (some zeroTable) (by decide!),
   by decide!,
   congrArg some
     (C31_failure_atomicity.2.2.2.2.1 state0 "a" (-1, state0) (by decide!) (by decide)),
   by decide!,
   congrArg some
     (C31_failure_atomicity.2.2.2.2.2.1 state0 "a" (-1, state0) (by decide!) (by decide)),
   by decide!,
   congrArg some
     (C31_failure_atomicity.2.2.2.2.2.2.1 state0 "a" (-1, state0) (by decide!) (by decide))⟩

end CVFS
